import Mathlib

/-!
# Camera manipulator (filament `libs/camutils`): embedding and verified properties

The C++ sources are templated over the floating-point type `FLOAT`.  The embedding keeps
that genericity: every program definition is written over an arbitrary linearly ordered
field `F` equipped with the scalar math routines the sources call (`FloatOps`).  The
properties are then proved for the exact instance `F = ℝ`, where `sqrt`, `sin`, `cos`,
`tan`, `asin`, `atan2` are the real functions and `F_PI` is `π`.  Rounding is not
modelled: the statements are the exact real-number counterparts of the floating-point
behaviour.

Conventions of the embedding:

* Pixel coordinates are C `int`s; they are embedded as `Int` (no wrap-around is modelled:
  signed overflow is undefined behaviour in the source language).
* A mutating method is a function from the state before the call to the state after it;
  a `const` method is a function of the state.  Out-parameters and locals without
  initialiser are explicit arguments (their previous, indeterminate content).
* Division by zero yields `0` in a field, where the floating-point code yields an
  infinity or a NaN.  Every property below either carries the hypothesis that keeps the
  divisors it depends on away from zero, or is evaluated at a state where they are not
  zero; a quotient whose value is discarded by the code plays no role.  For sequences of
  orbit calls the divisors are checked call by call (`OrbitManipulator.stepChecked`).
* The bookmark union is split: orbit methods use `OrbitParams`, map methods `MapParams`;
  the back pointer to the producing manipulator is not represented.
-/

namespace Camutils

/-! ## Scalar math routines used by the sources (`<cmath>`, `math/scalar.h`) -/

/-- The scalar routines of the numeric library that the manipulator sources call.
They are not part of the sources under study and are taken as parameters. -/
class FloatOps (F : Type) where
  /-- The routine `std::sqrt`. -/
  sqrt : F → F
  /-- The routine `std::sin`. -/
  sin : F → F
  /-- The routine `std::cos`. -/
  cos : F → F
  /-- The routine `std::tan`. -/
  tan : F → F
  /-- The routine `std::asin`. -/
  asin : F → F
  /-- The routine `std::atan2 (y, x)`. -/
  atan2 : F → F → F
  /-- The constant `F_PI`. -/
  pi : F

/-- The exact real instance: the real square root and trigonometric functions; `atan2 y x`
is the argument of the complex number `x + i y`, with values in `(-π, π]` and
`atan2 0 0 = 0` as in the C library. -/
noncomputable instance realFloatOps : FloatOps ℝ where
  sqrt := Real.sqrt
  sin := Real.sin
  cos := Real.cos
  tan := Real.tan
  asin := Real.arcsin
  atan2 := fun y x => Complex.arg ⟨x, y⟩
  pi := Real.pi

section Vectors

variable {F : Type}

/-- Two-component vector (`math::vec2<FLOAT>`). -/
@[ext]
structure Vec2 (F : Type) where
  x : F
  y : F
deriving DecidableEq

/-- Three-component vector (`math::vec3<FLOAT>`). -/
@[ext]
structure Vec3 (F : Type) where
  x : F
  y : F
  z : F
deriving DecidableEq

/-- Four-component vector (`math::vec4<FLOAT>`). -/
@[ext]
structure Vec4 (F : Type) where
  x : F
  y : F
  z : F
  w : F
deriving DecidableEq

/-- The constructor `vec2(s)` that replicates one scalar. -/
def Vec2.splat (s : F) : Vec2 F := ⟨s, s⟩

/-- The constructor `vec3(s)` that replicates one scalar. -/
def Vec3.splat (s : F) : Vec3 F := ⟨s, s, s⟩

/-- The constructor `vec4(s)` that replicates one scalar. -/
def Vec4.splat (s : F) : Vec4 F := ⟨s, s, s, s⟩

/-- The swizzle `plane.xyz`. -/
def Vec4.xyz (p : Vec4 F) : Vec3 F := ⟨p.x, p.y, p.z⟩

variable [LinearOrderedField F]

instance : Add (Vec3 F) := ⟨fun a b => ⟨a.x + b.x, a.y + b.y, a.z + b.z⟩⟩
instance : Sub (Vec3 F) := ⟨fun a b => ⟨a.x - b.x, a.y - b.y, a.z - b.z⟩⟩
/-- Vector times scalar, `v * s`. -/
instance : HMul (Vec3 F) F (Vec3 F) := ⟨fun a s => ⟨a.x * s, a.y * s, a.z * s⟩⟩
/-- Scalar times vector, `s * v`. -/
instance : HMul F (Vec3 F) (Vec3 F) := ⟨fun s a => ⟨s * a.x, s * a.y, s * a.z⟩⟩
/-- Vector divided by scalar, `v / s`. -/
instance : HDiv (Vec3 F) F (Vec3 F) := ⟨fun a s => ⟨a.x / s, a.y / s, a.z / s⟩⟩

/-- Modelled from the spec: `dot` of the external vector library, the Euclidean inner
product. -/
def dot (a b : Vec3 F) : F := a.x * b.x + a.y * b.y + a.z * b.z

/-- Modelled from the spec: `cross` of the external vector library, the right-handed
cross product. -/
def cross (a b : Vec3 F) : Vec3 F :=
  ⟨a.y * b.z - a.z * b.y, a.z * b.x - a.x * b.z, a.x * b.y - a.y * b.x⟩

variable [FloatOps F]

/-- Modelled from the spec: `length` of the external vector library,
`sqrt (dot v v)`. -/
def length (v : Vec3 F) : F := FloatOps.sqrt (dot v v)

/-- Modelled from the spec: `distance` of the external vector library, the length of the
difference. -/
def distance (a b : Vec3 F) : F := length (b - a)

/-- Modelled from the spec: `normalize` of the external vector library,
`v * (1 / length v)`. -/
def normalize (v : Vec3 F) : Vec3 F := v * (1 / length v)

/-- Modelled from the spec: `clamp (v, lo, hi)` of `math/scalar.h`,
`min (hi, max (v, lo))`. -/
def clamp (v lo hi : F) : F := min hi (max v lo)

end Vectors

/-! ## Configuration and bookmarks (`Manipulator.h`, `Bookmark.h`) -/

/-- The manipulator mode tag: `enum class Mode`. -/
inductive Mode where
  | ORBIT
  | MAP
deriving DecidableEq, Repr

/-- The field-of-view axis: `enum class Fov`. -/
inductive Fov where
  | VERTICAL
  | HORIZONTAL
deriving DecidableEq, Repr

/-- The type `RayCallback`: a function of ray origin, ray direction, the previous content
of the out-parameter `*t` and the user data pointer, that returns the hit flag and the new
content of `*t`. -/
abbrev RayCallback (F : Type) := Vec3 F → Vec3 F → F → Nat → Bool × F

/-- The struct `Manipulator::Properties`.  The nullable function pointer `raycastCallback`
is an `Option`; the `void*` user data is an opaque number. -/
structure Properties (F : Type) where
  viewport : Int × Int
  zoomSpeed : F
  homeTarget : Vec3 F
  homeUpVector : Vec3 F
  groundPlane : Vec4 F
  raycastCallback : Option (RayCallback F)
  raycastUserdata : Nat
  homeVector : Vec3 F
  orbitSpeed : Vec2 F
  strafeSpeed : Vec2 F
  fovDirection : Fov
  fovDegrees : F
  farPlane : F
  mapExtent : Vec2 F
  mapMinDistance : F

/-- The struct `Bookmark::MapParams`. -/
structure MapParams (F : Type) where
  extent : F
  center : Vec2 F

/-- The struct `Bookmark::OrbitParams`. -/
structure OrbitParams (F : Type) where
  phi : F
  theta : F
  distance : F
  pivot : Vec3 F

/-- The base class state: `mMode`, `mProps`, `mEye`, `mTarget`. -/
structure Manipulator (F : Type) where
  mMode : Mode
  mProps : Properties F
  mEye : Vec3 F
  mTarget : Vec3 F

/-! ## Base class operations (`Manipulator.cpp`) -/

section Base

variable {F : Type} [LinearOrderedField F] [FloatOps F]

/-- The constructor `Manipulator::Manipulator (mode, props)`: stores the mode and a copy of
the properties.  The members `mEye` and `mTarget` are left indeterminate by the source; they
are zero here until the derived constructor writes them. -/
def Manipulator.new (mode : Mode) (props : Properties F) : Manipulator F :=
  { mMode := mode, mProps := props, mEye := ⟨0, 0, 0⟩, mTarget := ⟨0, 0, 0⟩ }

/-- The method `Manipulator::setProperties`: copies the properties, then replaces each
listed field that compares equal to zero by its default. -/
def Manipulator.setProperties (m : Manipulator F) (props : Properties F) : Manipulator F :=
  let p := props
  let p := if p.zoomSpeed = 0 then { p with zoomSpeed := 1 / 100 } else p
  let p := if p.homeUpVector = Vec3.splat 0 then { p with homeUpVector := ⟨0, 1, 0⟩ } else p
  let p := if p.groundPlane = Vec4.splat 0 then { p with groundPlane := ⟨0, 0, 1, 0⟩ } else p
  let p := if p.homeVector = Vec3.splat 0 then { p with homeVector := ⟨0, 0, 1⟩ } else p
  let p := if p.orbitSpeed = Vec2.splat 0 then { p with orbitSpeed := Vec2.splat (1 / 100) } else p
  let p := if p.strafeSpeed = Vec2.splat 0 then { p with strafeSpeed := Vec2.splat (1 / 100) } else p
  let p := if p.fovDegrees = 0 then { p with fovDegrees := 33 } else p
  let p := if p.farPlane = 0 then { p with farPlane := 5000 } else p
  let p := if p.mapExtent = Vec2.splat 0 then { p with mapExtent := Vec2.splat 512 } else p
  { m with mProps := p }

/-- The method `Manipulator::getProperties`. -/
def Manipulator.getProperties (m : Manipulator F) : Properties F := m.mProps

/-- The method `Manipulator::getLookAt`: the triple written to `*eyepos`, `*target`,
`*upward`.  The method is `const`: it has no access to change the state. -/
def Manipulator.getLookAt (m : Manipulator F) : Vec3 F × Vec3 F × Vec3 F :=
  let target := m.mTarget
  let eyepos := m.mEye
  let gaze := normalize (m.mTarget - m.mEye)
  let right := cross gaze m.mProps.homeUpVector
  let upward := cross right gaze
  (eyepos, target, upward)

/-- The static function `raycastPlane` of `Manipulator.cpp` (the fallback intersector),
with `userdata` pointing to the properties.  The argument `t` is the previous content of
the out-parameter; the result is the return value and the new content. -/
def raycastPlane (props : Properties F) (origin dir : Vec3 F) (t : F) : Bool × F :=
  let plane := props.groundPlane
  let n : Vec3 F := ⟨plane.x, plane.y, plane.z⟩
  let p0 := n * plane.w
  let denom := -dot n dir
  if denom > 1 / 1000000 then
    let p0l0 := p0 - origin
    let t := dot p0l0 n / -denom
    (decide (t ≥ 0), t)
  else
    (false, t)

/-- The direction of the camera ray through pixel `(x, y)` before normalisation, as
computed by both `Manipulator::raycast` and `MapManipulator::raycastFarPlane`. -/
def pixelDir (m : Manipulator F) (x y : Int) : Vec3 F :=
  let gaze := normalize (m.mTarget - m.mEye)
  let right := cross gaze m.mProps.homeUpVector
  let upward := cross right gaze
  let width : F := (m.mProps.viewport.1 : F)
  let height : F := (m.mProps.viewport.2 : F)
  let fov := m.mProps.fovDegrees * FloatOps.pi / 180
  let u := 2 * (1 / 2 + (x : F)) / width - 1
  let v := 2 * (1 / 2 + (y : F)) / height - 1
  let tangent := FloatOps.tan (fov / 2)
  let aspect := width / height
  let dir := gaze
  if m.mProps.fovDirection = Fov.VERTICAL then
    let dir := dir + right * tangent * u * aspect
    let dir := dir + upward * tangent * v
    dir
  else
    let dir := dir + right * tangent * u
    let dir := dir + upward * tangent * v / aspect
    dir

/-- The method `Manipulator::raycast`.  The argument `result` is the previous content of
the out-parameter, `t0` the indeterminate initial content of the local `t`; the value is
the returned flag and the new content of `*result`. -/
def Manipulator.raycast (m : Manipulator F) (x y : Int) (result : Vec3 F) (t0 : F) :
    Bool × Vec3 F :=
  let dir := normalize (pixelDir m x y)
  match m.mProps.raycastCallback with
  | none =>
    -- callback = fallback
    let r := raycastPlane m.mProps m.mEye dir t0
    if !r.1 then (false, result) else (true, m.mEye + dir * r.2)
  | some callback =>
    let r := callback m.mEye dir t0 m.mProps.raycastUserdata
    if !r.1 then
      let r2 := raycastPlane m.mProps m.mEye dir r.2
      if !r2.1 then (false, result) else (true, m.mEye + dir * r2.2)
    else (true, m.mEye + dir * r.2)

end Base

/-! ## Orbit mode (`OrbitManipulator.h`) -/

/-- The states of an orbit grab session: `enum GrabState`. -/
inductive GrabState where
  | INACTIVE
  | GRABBING
  | STRAFING
deriving DecidableEq, Repr

/-- The class `OrbitManipulator`: the base class state and the private members. -/
structure OrbitManipulator (F : Type) extends Manipulator F where
  mGrabState : GrabState
  mFlipped : Bool
  mGrabPivot : Vec3 F
  mGrabEye : Vec3 F
  mGrabTarget : Vec3 F
  mGrabBookmark : OrbitParams F
  mGrabWinX : Int
  mGrabWinY : Int
  mPivot : Vec3 F

section Orbit

variable {F : Type} [LinearOrderedField F] [FloatOps F]

/-- The macro `MAX_PHI`, `F_PI / 2.0 - 0.001`. -/
def MAX_PHI : F := FloatOps.pi / 2 - 1 / 1000

namespace OrbitManipulator

/-- The constructor `OrbitManipulator (mode, props)`.  The grab members have no
initialiser in the source (they are written by `grabBegin` before any use); they are zero
here. -/
def new (mode : Mode) (props : Properties F) : OrbitManipulator F :=
  let base : Manipulator F := Manipulator.new mode props
  { mMode := base.mMode
    mProps := base.mProps
    mEye := base.mProps.homeTarget + base.mProps.homeVector
    mTarget := base.mProps.homeTarget
    mGrabState := GrabState.INACTIVE
    mFlipped := false
    mGrabPivot := ⟨0, 0, 0⟩
    mGrabEye := ⟨0, 0, 0⟩
    mGrabTarget := ⟨0, 0, 0⟩
    mGrabBookmark := ⟨0, 0, 0, ⟨0, 0, 0⟩⟩
    mGrabWinX := 0
    mGrabWinY := 0
    mPivot := base.mProps.homeTarget }

/-- The method `getCurrentBookmark` (the orbit member of the bookmark union). -/
def getCurrentBookmark (m : OrbitManipulator F) : OrbitParams F :=
  let pivotToEye := m.mEye - m.mPivot
  let d := length pivotToEye
  let x := pivotToEye.x / d
  let y := pivotToEye.y / d
  let z := pivotToEye.z / d
  { phi := FloatOps.asin y
    theta := FloatOps.atan2 x z
    distance := if m.mFlipped then -d else d
    pivot := m.mPivot }

/-- The method `getHomeBookmark`. -/
def getHomeBookmark (m : OrbitManipulator F) : OrbitParams F :=
  { phi := 0
    theta := 0
    pivot := m.mProps.homeTarget
    distance := length m.mProps.homeVector }

/-- The method `jumpToBookmark`. -/
def jumpToBookmark (m : OrbitManipulator F) (bookmark : OrbitParams F) : OrbitManipulator F :=
  let mPivot := bookmark.pivot
  let x := FloatOps.sin bookmark.theta * FloatOps.cos bookmark.phi
  let y := FloatOps.sin bookmark.phi
  let z := FloatOps.cos bookmark.theta * FloatOps.cos bookmark.phi
  let mEye := mPivot + (⟨x, y, z⟩ : Vec3 F) * |bookmark.distance|
  let mFlipped := decide (bookmark.distance < 0)
  let mTarget := mEye + (⟨x, y, z⟩ : Vec3 F) * (if mFlipped then (1 : F) else -1)
  { m with mPivot := mPivot, mEye := mEye, mFlipped := mFlipped, mTarget := mTarget }

/-- The method `grabBegin`. -/
def grabBegin (m : OrbitManipulator F) (x y : Int) (strafe : Bool) : OrbitManipulator F :=
  { m with
    mGrabState := if strafe then GrabState.STRAFING else GrabState.GRABBING
    mGrabPivot := m.mPivot
    mGrabEye := m.mEye
    mGrabTarget := m.mTarget
    mGrabBookmark := getCurrentBookmark m
    mGrabWinX := x
    mGrabWinY := y }

/-- The `GRABBING` branch of `grabUpdate`. -/
def grabUpdateRotate (m : OrbitManipulator F) (delx dely : Int) : OrbitManipulator F :=
  let bookmark := getCurrentBookmark m
  let theta := (delx : F) * m.mProps.orbitSpeed.x
  let phi := (dely : F) * m.mProps.orbitSpeed.y
  let maxPhi : F := MAX_PHI
  let bookmark := { bookmark with phi := clamp (m.mGrabBookmark.phi + phi) (-maxPhi) maxPhi }
  let bookmark := { bookmark with theta := m.mGrabBookmark.theta + theta }
  jumpToBookmark m bookmark

/-- The `STRAFING` branch of `grabUpdate`. -/
def grabUpdateStrafe (m : OrbitManipulator F) (delx dely : Int) : OrbitManipulator F :=
  let gaze := normalize (m.mTarget - m.mEye)
  let right := cross gaze m.mProps.homeUpVector
  let upward := cross right gaze
  let dx := (delx : F) * m.mProps.strafeSpeed.x
  let dy := (dely : F) * m.mProps.strafeSpeed.y
  let movement := upward * dy + right * dx
  { m with
    mPivot := m.mGrabPivot + movement
    mEye := m.mGrabEye + movement
    mTarget := m.mGrabTarget + movement }

/-- The method `grabUpdate`: the two `if` statements in sequence (neither branch changes
`mGrabState`, so at most one of them runs). -/
def grabUpdate (m : OrbitManipulator F) (x y : Int) : OrbitManipulator F :=
  let delx := m.mGrabWinX - x
  let dely := m.mGrabWinY - y
  let m := if m.mGrabState = GrabState.GRABBING then grabUpdateRotate m delx dely else m
  let m := if m.mGrabState = GrabState.STRAFING then grabUpdateStrafe m delx dely else m
  m

/-- The method `grabEnd`. -/
def grabEnd (m : OrbitManipulator F) : OrbitManipulator F :=
  { m with mGrabState := GrabState.INACTIVE }

/-- The method `zoom`. -/
def zoom (m : OrbitManipulator F) (_x _y : Int) (scrolldelta : F) : OrbitManipulator F :=
  let gaze := normalize (m.mTarget - m.mEye)
  let movement := gaze * m.mProps.zoomSpeed * scrolldelta
  let v0 := m.mPivot - m.mEye
  let mEye := m.mEye + movement
  let mTarget := m.mTarget + movement
  let v1 := m.mPivot - mEye
  { m with
    mEye := mEye
    mTarget := mTarget
    mFlipped := if dot v0 v1 < 0 then !m.mFlipped else m.mFlipped }

end OrbitManipulator

end Orbit

/-! ## Map mode (`MapManipulator.h`) -/

/-- The class `MapManipulator`: the base class state and the private members. -/
structure MapManipulator (F : Type) extends Manipulator F where
  mGrabbing : Bool
  mGrabScene : Vec3 F
  mGrabFar : Vec3 F
  mGrabEye : Vec3 F
  mGrabTarget : Vec3 F

section Map

variable {F : Type} [LinearOrderedField F] [FloatOps F]

namespace MapManipulator

/-- The constructor `MapManipulator (mode, props)`.  Only `mGrabbing` has an initialiser in
the source; the vectors are zero here. -/
def new (mode : Mode) (props : Properties F) : MapManipulator F :=
  { toManipulator := Manipulator.new mode props
    mGrabbing := false
    mGrabScene := ⟨0, 0, 0⟩
    mGrabFar := ⟨0, 0, 0⟩
    mGrabEye := ⟨0, 0, 0⟩
    mGrabTarget := ⟨0, 0, 0⟩ }

/-- The private method `raycastFarPlane`.  The pixel direction `dir` is computed by the
source and then not used: the returned point is `mEye + gaze * farPlane`. -/
def raycastFarPlane (m : MapManipulator F) (x y : Int) : Vec3 F :=
  let gaze := normalize (m.mTarget - m.mEye)
  let _dir := pixelDir m.toManipulator x y
  m.mEye + gaze * m.mProps.farPlane

/-- The private method `raycastPlane` (same body as the static fallback intersector, on the
properties of this manipulator). -/
def raycastPlane (m : MapManipulator F) (origin dir : Vec3 F) (t : F) : Bool × F :=
  Camutils.raycastPlane m.mProps origin dir t

/-- The private method `moveWithConstraints`. -/
def moveWithConstraints (m : MapManipulator F) (eye target : Vec3 F) : MapManipulator F :=
  { m with mEye := eye, mTarget := target }

/-- The method `grabBegin`.  The raycast writes straight into `mGrabScene`; `t0` is the
indeterminate initial content of the local `t` of `raycast`. -/
def grabBegin (m : MapManipulator F) (x y : Int) (strafe : Bool) (t0 : F) : MapManipulator F :=
  if strafe then m
  else
    let r := m.toManipulator.raycast x y m.mGrabScene t0
    let m := { m with mGrabScene := r.2 }
    if !r.1 then m
    else
      { m with
        mGrabFar := raycastFarPlane m x y
        mGrabEye := m.mEye
        mGrabTarget := m.mTarget
        mGrabbing := true }

/-- The method `grabUpdate`. -/
def grabUpdate (m : MapManipulator F) (x y : Int) : MapManipulator F :=
  if m.mGrabbing then
    let ulen := distance m.mGrabScene m.mGrabEye
    let vlen := distance m.mGrabFar m.mGrabScene
    let translation := (m.mGrabFar - raycastFarPlane m x y) * ulen / vlen
    let eyepos := m.mGrabEye + translation
    let target := m.mGrabTarget + translation
    moveWithConstraints m eyepos target
  else m

/-- The method `grabEnd`. -/
def grabEnd (m : MapManipulator F) : MapManipulator F :=
  { m with mGrabbing := false }

/-- The method `zoom`.  The arguments `g0` and `t0` are the indeterminate initial contents
of the locals `grabScene` and (inside `raycast`) `t`. -/
def zoom (m : MapManipulator F) (x y : Int) (scrolldelta : F) (g0 : Vec3 F) (t0 : F) :
    MapManipulator F :=
  let r := m.toManipulator.raycast x y g0 t0
  if !r.1 then m
  else
    let grabScene := r.2
    let u := grabScene - m.mEye
    if scrolldelta > 0 ∧ length u < m.mProps.zoomSpeed then m
    else
      let u := u * m.mProps.zoomSpeed
      let eyepos := m.mEye + u
      let target := m.mTarget + u
      moveWithConstraints m eyepos target

/-- The method `getCurrentBookmark` (the map member of the bookmark union).  The argument
`t0` is the indeterminate initial content of the local `distance`, which `raycastPlane`
overwrites whenever the ray faces the plane; the returned flag is ignored by the source. -/
def getCurrentBookmark (m : MapManipulator F) (t0 : F) : MapParams F :=
  let dir := normalize (m.mTarget - m.mEye)
  let distance := (raycastPlane m m.mEye dir t0).2
  let fov := m.mProps.fovDegrees * FloatOps.pi / 180
  let halfExtent := distance * FloatOps.tan (fov / 2)
  let target := m.mEye + dir * distance
  let targetToEye := m.mProps.groundPlane.xyz
  let uvec := cross m.mProps.homeUpVector targetToEye
  let vvec := cross targetToEye uvec
  let target := target - m.mProps.homeTarget
  { extent := halfExtent * 2
    center := ⟨dot uvec target, dot vvec target⟩ }

/-- The method `getHomeBookmark`. -/
def getHomeBookmark (m : MapManipulator F) : MapParams F :=
  let width := m.mProps.mapExtent.x / 2
  let height := m.mProps.mapExtent.y / 2
  let horiz := decide (m.mProps.fovDirection = Fov.HORIZONTAL)
  { extent := if horiz then width else height
    center := ⟨0, 0⟩ }

/-- The method `jumpToBookmark`. -/
def jumpToBookmark (m : MapManipulator F) (bookmark : MapParams F) : MapManipulator F :=
  let targetToEye := m.mProps.groundPlane.xyz
  let halfExtent := bookmark.extent / 2
  let fov := m.mProps.fovDegrees * FloatOps.pi / 180
  let distance := halfExtent / FloatOps.tan (fov / 2)
  let uvec := cross m.mProps.homeUpVector targetToEye
  let vvec := cross targetToEye uvec
  let uvec := normalize uvec * bookmark.center.x
  let vvec := normalize vvec * bookmark.center.y
  let mTarget := m.mProps.homeTarget + uvec + vvec
  let mEye := mTarget + distance * targetToEye
  { m with mTarget := mTarget, mEye := mEye }

end MapManipulator

end Map

/-! ## Factory (`Manipulator::create`) -/

/-- The object returned by `Manipulator::create`: one of the two implementations behind the
base class pointer. -/
inductive Handle (F : Type) where
  | orbit (m : OrbitManipulator F)
  | map (m : MapManipulator F)

section Factory

variable {F : Type} [LinearOrderedField F] [FloatOps F]

/-- The static method `Manipulator::create`. -/
def create (mode : Mode) (props : Properties F) : Handle F :=
  if mode = Mode.MAP then Handle.map (MapManipulator.new mode props)
  else Handle.orbit (OrbitManipulator.new mode props)

/-- The base class sub-object of a manipulator. -/
def Handle.base : Handle F → Manipulator F
  | Handle.orbit m => m.toManipulator
  | Handle.map m => m.toManipulator

/-- The call `handle->getLookAt (...)`. -/
def Handle.getLookAt (h : Handle F) : Vec3 F × Vec3 F × Vec3 F := h.base.getLookAt

end Factory

/-! ## Call sequences and concrete configurations used by the properties -/

section Scenarios

variable {F : Type} [LinearOrderedField F] [FloatOps F]

/-- The call `jumpToBookmark (getCurrentBookmark ())` on an orbit manipulator. -/
def OrbitManipulator.roundTrip (m : OrbitManipulator F) : OrbitManipulator F :=
  m.jumpToBookmark m.getCurrentBookmark

/-- The call `jumpToBookmark (getCurrentBookmark ())` on a map manipulator (`t0` is the
indeterminate initial content of the local `distance`). -/
def MapManipulator.roundTrip (m : MapManipulator F) (t0 : F) : MapManipulator F :=
  m.jumpToBookmark (m.getCurrentBookmark t0)

/-- A configuration with every field at its zero value. -/
def zeroProps : Properties F :=
  { viewport := (0, 0)
    zoomSpeed := 0
    homeTarget := ⟨0, 0, 0⟩
    homeUpVector := ⟨0, 0, 0⟩
    groundPlane := ⟨0, 0, 0, 0⟩
    raycastCallback := none
    raycastUserdata := 0
    homeVector := ⟨0, 0, 0⟩
    orbitSpeed := ⟨0, 0⟩
    strafeSpeed := ⟨0, 0⟩
    fovDirection := Fov.VERTICAL
    fovDegrees := 0
    farPlane := 0
    mapExtent := ⟨0, 0⟩
    mapMinDistance := 0 }

/-- The configuration of the construction scenario: viewport `(800, 600)`, home target
`(0, 0, 0)`, home vector `(0, 0, 5)`, every other field zero. -/
def scenarioProps : Properties F :=
  { (zeroProps : Properties F) with
    viewport := (800, 600)
    homeTarget := ⟨0, 0, 0⟩
    homeVector := ⟨0, 0, 5⟩ }

/-- The orbit manipulator built from the scenario configuration. -/
def scenarioOrbit : OrbitManipulator F := OrbitManipulator.new Mode.ORBIT scenarioProps

/-- An orbit manipulator whose home vector is the unit vector `(0, 0, 1)`. -/
def unitOrbit : OrbitManipulator F :=
  OrbitManipulator.new Mode.ORBIT { (zeroProps : Properties F) with homeVector := ⟨0, 0, 1⟩ }

/-- The base state of an orbit manipulator at eye `(0, 3, 4)` with target `(0, 0, 0)` and the
unit up vector `(0, 1, 0)`; the gaze is tilted against the up vector. -/
def tiltedView : Manipulator F :=
  (OrbitManipulator.new Mode.ORBIT
    { (zeroProps : Properties F) with
      homeUpVector := ⟨0, 1, 0⟩
      homeVector := ⟨0, 3, 4⟩ }).toManipulator

/-- The base state of an orbit manipulator built from the scenario configuration with the
up vector `(0, 1, 0)` given explicitly. -/
def uprightView : Manipulator F :=
  (OrbitManipulator.new Mode.ORBIT
    { (scenarioProps : Properties F) with homeUpVector := ⟨0, 1, 0⟩ }).toManipulator

/-- The orbit manipulator of the rotation scenario: the scenario configuration with orbit
speed `(0.01, 0.01)`. -/
def rotateOrbit : OrbitManipulator F :=
  OrbitManipulator.new Mode.ORBIT
    { (scenarioProps : Properties F) with orbitSpeed := ⟨1 / 100, 1 / 100⟩ }

/-- The rotation scenario: `grabBegin (400, 300, false)`, `grabUpdate (450, 300)`,
`grabEnd ()` on the home view. -/
def rotateScenario : OrbitManipulator F :=
  (((rotateOrbit : OrbitManipulator F).grabBegin 400 300 false).grabUpdate 450 300).grabEnd

/-- An orbit manipulator with zoom speed `1` and home vector `(0, 0, 5)`. -/
def zoomOrbit : OrbitManipulator F :=
  OrbitManipulator.new Mode.ORBIT
    { (zeroProps : Properties F) with
      zoomSpeed := 1
      homeVector := ⟨0, 0, 5⟩ }

/-- A map configuration: viewport `(1, 1)`, zoom speed `1/5`, up vector `(0, 1, 0)`, ground
plane `z = 0` with normal `(0, 0, 1)`, field of view `90` degrees, home target at the
origin, no raycast callback. -/
def mapProps : Properties F :=
  { (zeroProps : Properties F) with
    viewport := (1, 1)
    zoomSpeed := 1 / 5
    homeUpVector := ⟨0, 1, 0⟩
    groundPlane := ⟨0, 0, 1, 0⟩
    fovDegrees := 90 }

/-- The map manipulator built from `mapProps` after jumping to the bookmark with extent
`10` centred at `(0, 0)`. -/
def mapHome : MapManipulator F :=
  (MapManipulator.new Mode.MAP mapProps).jumpToBookmark { extent := 10, center := ⟨0, 0⟩ }

/-- The state `mapHome` after `zoom (0, 0, 1)` (the indeterminate locals are zero). -/
def mapZoomed : MapManipulator F :=
  (mapHome : MapManipulator F).zoom 0 0 1 ⟨0, 0, 0⟩ 0

/-- A sequence of `grabUpdate` calls on an orbit manipulator, one per pixel of the list, in
order. -/
def OrbitManipulator.grabUpdates (m : OrbitManipulator F) (ps : List (Int × Int)) :
    OrbitManipulator F :=
  ps.foldl (fun s p => s.grabUpdate p.1 p.2) m

/-- A sequence of `grabUpdate` calls on a map manipulator, one per pixel of the list, in
order. -/
def MapManipulator.grabUpdates (m : MapManipulator F) (ps : List (Int × Int)) :
    MapManipulator F :=
  ps.foldl (fun s p => s.grabUpdate p.1 p.2) m

/-- The base state of a map manipulator looking straight down from `(0, 0, 5)` at the plane
`z = 0`, with viewport `(2, 2)`, field of view `90` degrees and the (non-unit) up vector
`(0, 2000000, 0)`: the state after jumping to the bookmark with extent `10` centred at
`(0, 0)`. -/
def steepView : Manipulator F :=
  ((MapManipulator.new Mode.MAP
    { (zeroProps : Properties F) with
      viewport := (2, 2)
      homeUpVector := ⟨0, 2000000, 0⟩
      groundPlane := ⟨0, 0, 1, 0⟩
      fovDegrees := 90 }).jumpToBookmark { extent := 10, center := ⟨0, 0⟩ }).toManipulator

/-- A map configuration for panning: `mapProps` with viewport `(4, 1)`, a horizontal
field-of-view axis and the far plane at distance `10`. -/
def panProps : Properties F :=
  { (mapProps : Properties F) with
    viewport := (4, 1)
    fovDirection := Fov.HORIZONTAL
    farPlane := 10 }

/-- The map manipulator built from `panProps` after jumping to the bookmark with extent
`10` centred at `(0, 0)`. -/
def panHome : MapManipulator F :=
  (MapManipulator.new Mode.MAP panProps).jumpToBookmark { extent := 10, center := ⟨0, 0⟩ }

/-- The state `panHome` after `grabBegin (3, 0, false)`. -/
def panGrab : MapManipulator F :=
  (panHome : MapManipulator F).grabBegin 3 0 false 0

/-- A map manipulator created in map mode with map extent `(512, 512)` and a horizontal
field-of-view axis. -/
def mapExtentHome : MapManipulator F :=
  MapManipulator.new Mode.MAP
    { (zeroProps : Properties F) with
      fovDirection := Fov.HORIZONTAL
      mapExtent := ⟨512, 512⟩ }

/-- A map configuration whose zoom overshoots the scene point: `mapProps` with zoom speed
`2` and the far plane at distance `10`. -/
def staleProps : Properties F :=
  { (mapProps : Properties F) with
    zoomSpeed := 2
    farPlane := 10 }

/-- The map manipulator built from `staleProps` after jumping to the bookmark with extent
`10` centred at `(0, 0)`. -/
def staleHome : MapManipulator F :=
  (MapManipulator.new Mode.MAP staleProps).jumpToBookmark { extent := 10, center := ⟨0, 0⟩ }

/-- The state `staleHome` after `grabBegin (0, 0, false)` and then, with the panning session
still open, `zoom (0, 0, 1)`, which carries the eye through the ground plane. -/
def staleZoomed : MapManipulator F :=
  ((staleHome : MapManipulator F).grabBegin 0 0 false 0).zoom 0 0 1 ⟨0, 0, 0⟩ 0

end Scenarios

/-! ## Auxiliary facts: vectors over an ordered field -/

section VectorLemmas

variable {F : Type} [LinearOrderedField F]

theorem Vec3.add_def (a b : Vec3 F) : a + b = ⟨a.x + b.x, a.y + b.y, a.z + b.z⟩ := rfl

theorem Vec3.sub_def (a b : Vec3 F) : a - b = ⟨a.x - b.x, a.y - b.y, a.z - b.z⟩ := rfl

theorem Vec3.mul_def (a : Vec3 F) (s : F) : a * s = ⟨a.x * s, a.y * s, a.z * s⟩ := rfl

theorem Vec3.smul_def (s : F) (a : Vec3 F) : s * a = ⟨s * a.x, s * a.y, s * a.z⟩ := rfl

theorem Vec3.div_def (a : Vec3 F) (s : F) : a / s = ⟨a.x / s, a.y / s, a.z / s⟩ := rfl

theorem dot_self_nonneg (v : Vec3 F) : 0 ≤ dot v v := by
  unfold dot
  nlinarith [mul_self_nonneg v.x, mul_self_nonneg v.y, mul_self_nonneg v.z]

theorem dot_self_eq_zero {v : Vec3 F} (h : dot v v = 0) : v = ⟨0, 0, 0⟩ := by
  unfold dot at h
  have hx : v.x = 0 := by
    nlinarith [mul_self_nonneg v.x, mul_self_nonneg v.y, mul_self_nonneg v.z]
  have hy : v.y = 0 := by
    nlinarith [mul_self_nonneg v.x, mul_self_nonneg v.y, mul_self_nonneg v.z]
  have hz : v.z = 0 := by
    nlinarith [mul_self_nonneg v.x, mul_self_nonneg v.y, mul_self_nonneg v.z]
  ext <;> assumption

theorem sub_ne_zero_vec {a b : Vec3 F} (h : a ≠ b) : a - b ≠ ⟨0, 0, 0⟩ := by
  intro h0
  apply h
  rw [Vec3.sub_def] at h0
  have hx := congrArg Vec3.x h0
  have hy := congrArg Vec3.y h0
  have hz := congrArg Vec3.z h0
  simp only at hx hy hz
  ext
  · linarith
  · linarith
  · linarith

theorem dot_self_pos {v : Vec3 F} (h : v ≠ ⟨0, 0, 0⟩) : 0 < dot v v :=
  lt_of_le_of_ne (dot_self_nonneg v) (fun h0 => h (dot_self_eq_zero h0.symm))

/-- The double cross product `(g × h) × g` is always orthogonal to `g`. -/
theorem dot_cross_cross_self (g h : Vec3 F) : dot (cross (cross g h) g) g = 0 := by
  simp only [dot, cross]
  ring

/-- The expansion `(g × h) × g = h (g·g) - g (g·h)`. -/
theorem cross_cross_self (g h : Vec3 F) :
    cross (cross g h) g = h * dot g g - g * dot g h := by
  simp only [dot, cross, Vec3.mul_def, Vec3.sub_def]
  ext <;> simp only <;> ring

end VectorLemmas

/-! ## Auxiliary facts: the real instance -/

section RealLemmas

@[simp] theorem sqrt_real (x : ℝ) : FloatOps.sqrt x = Real.sqrt x := rfl

@[simp] theorem sin_real (x : ℝ) : FloatOps.sin x = Real.sin x := rfl

@[simp] theorem cos_real (x : ℝ) : FloatOps.cos x = Real.cos x := rfl

@[simp] theorem tan_real (x : ℝ) : FloatOps.tan x = Real.tan x := rfl

@[simp] theorem asin_real (x : ℝ) : FloatOps.asin x = Real.arcsin x := rfl

@[simp] theorem atan2_real (y x : ℝ) : FloatOps.atan2 y x = Complex.arg ⟨x, y⟩ := rfl

@[simp] theorem pi_real : (FloatOps.pi : ℝ) = Real.pi := rfl

theorem length_mul_self (v : Vec3 ℝ) : length v * length v = dot v v :=
  Real.mul_self_sqrt (dot_self_nonneg v)

theorem length_pos {v : Vec3 ℝ} (h : v ≠ ⟨0, 0, 0⟩) : 0 < length v :=
  Real.sqrt_pos.mpr (dot_self_pos h)

theorem length_mul (v : Vec3 ℝ) {s : ℝ} (hs : 0 ≤ s) : length (v * s) = length v * s := by
  unfold length
  have h : dot (v * s) (v * s) = dot v v * (s * s) := by
    simp only [dot, Vec3.mul_def]
    ring
  rw [sqrt_real, sqrt_real, h, Real.sqrt_mul (dot_self_nonneg v), Real.sqrt_mul_self hs]

theorem length_of_dot_eq_one {v : Vec3 ℝ} (h : dot v v = 1) : length v = 1 := by
  unfold length
  rw [sqrt_real, h, Real.sqrt_one]

/-- A normalised non-zero vector has unit dot product with itself. -/
theorem dot_normalize_self {v : Vec3 ℝ} (h : v ≠ ⟨0, 0, 0⟩) :
    dot (normalize v) (normalize v) = 1 := by
  have hl := length_pos h
  have hd := length_mul_self v
  have e : dot (normalize v) (normalize v) = dot v v * (1 / length v) * (1 / length v) := by
    simp only [normalize, dot, Vec3.mul_def]
    ring
  rw [e, ← hd]
  field_simp

/-- The direction rebuilt by `jumpToBookmark` from two angles is a unit vector. -/
theorem dot_spherical (θ φ : ℝ) :
    dot (⟨Real.sin θ * Real.cos φ, Real.sin φ, Real.cos θ * Real.cos φ⟩ : Vec3 ℝ)
      ⟨Real.sin θ * Real.cos φ, Real.sin φ, Real.cos θ * Real.cos φ⟩ = 1 := by
  simp only [dot]
  linear_combination (Real.cos φ) ^ 2 * Real.sin_sq_add_cos_sq θ + Real.sin_sq_add_cos_sq φ

theorem add_sub_cancel_vec (p v : Vec3 ℝ) : p + v - p = v := by
  simp only [Vec3.add_def, Vec3.sub_def]
  ext <;> simp

/-- For a pair `(a, c)`, the angle `atan2 a c` recovers `a` and `c` from their joint
length. -/
theorem sin_cos_arg_mul (a c : ℝ) :
    Real.sin (Complex.arg ⟨c, a⟩) * Real.sqrt (c * c + a * a) = a ∧
    Real.cos (Complex.arg ⟨c, a⟩) * Real.sqrt (c * c + a * a) = c := by
  have habs : Complex.abs ⟨c, a⟩ = Real.sqrt (c * c + a * a) := by
    rw [Complex.abs_apply, Complex.normSq_mk]
  have h := Complex.abs_mul_cos_add_sin_mul_I (⟨c, a⟩ : ℂ)
  have hre := congrArg Complex.re h
  have him := congrArg Complex.im h
  rw [habs] at hre him
  simp at hre him
  rw [Complex.cos_ofReal_re] at hre
  rw [Complex.sin_ofReal_re] at him
  constructor
  · linarith
  · linarith

end RealLemmas

/-! ## Auxiliary facts: orbit bookmarks -/

section OrbitLemmas

open OrbitManipulator

/-- The angles that `getCurrentBookmark` reads off a unit vector rebuild that vector. -/
theorem spherical_of_unit (a b c : ℝ) (h : a * a + b * b + c * c = 1) :
    (⟨Real.sin (Complex.arg ⟨c, a⟩) * Real.cos (Real.arcsin b), Real.sin (Real.arcsin b),
      Real.cos (Complex.arg ⟨c, a⟩) * Real.cos (Real.arcsin b)⟩ : Vec3 ℝ) = ⟨a, b, c⟩ := by
  have hb1 : -1 ≤ b := by nlinarith [mul_self_nonneg a, mul_self_nonneg c]
  have hb2 : b ≤ 1 := by nlinarith [mul_self_nonneg a, mul_self_nonneg c]
  have hcos : Real.cos (Real.arcsin b) = Real.sqrt (c * c + a * a) := by
    rw [Real.cos_arcsin]
    congr 1
    linarith
  obtain ⟨h1, h2⟩ := sin_cos_arg_mul a c
  rw [hcos, Real.sin_arcsin hb1 hb2, h1, h2]

/-- The unit vector from the pivot to the eye, componentwise as the source divides it. -/
theorem unit_pivotToEye (v : Vec3 ℝ) (hv : v ≠ ⟨0, 0, 0⟩) :
    v.x / length v * (v.x / length v) + v.y / length v * (v.y / length v)
      + v.z / length v * (v.z / length v) = 1 := by
  have hl := length_pos hv
  have hd := length_mul_self v
  simp only [dot] at hd
  field_simp
  linarith

theorem pivot_add_unit_mul (p e : Vec3 ℝ) (l : ℝ) (hl : l ≠ 0) :
    p + (⟨(e - p).x / l, (e - p).y / l, (e - p).z / l⟩ : Vec3 ℝ) * l = e := by
  simp only [Vec3.mul_def, Vec3.add_def, Vec3.sub_def]
  ext <;> simp only <;> field_simp

/-- Reading the bookmark back directly after `jumpToBookmark`, for a non-zero distance. -/
theorem getCurrentBookmark_jumpToBookmark (m : OrbitManipulator ℝ) (b : OrbitParams ℝ)
    (hd : b.distance ≠ 0) :
    getCurrentBookmark (jumpToBookmark m b) =
      { phi := Real.arcsin (Real.sin b.phi)
        theta := Complex.arg ⟨Real.cos b.theta * Real.cos b.phi,
          Real.sin b.theta * Real.cos b.phi⟩
        distance := b.distance
        pivot := b.pivot } := by
  have habs : 0 < |b.distance| := abs_pos.mpr hd
  have hlen : length ((⟨Real.sin b.theta * Real.cos b.phi, Real.sin b.phi,
      Real.cos b.theta * Real.cos b.phi⟩ : Vec3 ℝ) * |b.distance|) = |b.distance| := by
    rw [length_mul _ habs.le, length_of_dot_eq_one (dot_spherical _ _), one_mul]
  simp only [getCurrentBookmark, jumpToBookmark, sin_real, cos_real, asin_real, atan2_real,
    add_sub_cancel_vec, hlen]
  simp only [Vec3.mul_def, mul_div_assoc, div_self habs.ne', mul_one]
  congr 1
  by_cases hneg : b.distance < 0
  · simp [hneg, abs_of_neg hneg]
  · simp [hneg, abs_of_nonneg (not_lt.mp hneg)]

/-- The state after `jumpToBookmark (getCurrentBookmark ())` when the eye is off the pivot:
eye, pivot and flag are restored; the target is placed one unit from the eye on the line
through the pivot. -/
theorem jumpToBookmark_getCurrentBookmark (m : OrbitManipulator ℝ) (h : m.mEye ≠ m.mPivot) :
    (jumpToBookmark m (getCurrentBookmark m)).mEye = m.mEye ∧
    (jumpToBookmark m (getCurrentBookmark m)).mPivot = m.mPivot ∧
    (jumpToBookmark m (getCurrentBookmark m)).mFlipped = m.mFlipped ∧
    (jumpToBookmark m (getCurrentBookmark m)).mTarget =
      m.mEye + normalize (m.mEye - m.mPivot) * (if m.mFlipped then (1 : ℝ) else -1) := by
  have hv := sub_ne_zero_vec h
  have hl := length_pos hv
  have hunit := unit_pivotToEye _ hv
  have hdir := spherical_of_unit _ _ _ hunit
  have habs : |if m.mFlipped = true then -length (m.mEye - m.mPivot)
      else length (m.mEye - m.mPivot)| = length (m.mEye - m.mPivot) := by
    split
    · rw [abs_neg, abs_of_pos hl]
    · rw [abs_of_pos hl]
  have hflip : decide ((if m.mFlipped = true then -length (m.mEye - m.mPivot)
      else length (m.mEye - m.mPivot)) < 0) = m.mFlipped := by
    cases hf : m.mFlipped
    · simp [hl.le]
    · simp [hl]
  have heye : m.mPivot + (⟨(m.mEye - m.mPivot).x / length (m.mEye - m.mPivot),
      (m.mEye - m.mPivot).y / length (m.mEye - m.mPivot),
      (m.mEye - m.mPivot).z / length (m.mEye - m.mPivot)⟩ : Vec3 ℝ)
        * length (m.mEye - m.mPivot) = m.mEye := by
    exact pivot_add_unit_mul _ _ _ hl.ne'
  have hnorm : normalize (m.mEye - m.mPivot) =
      ⟨(m.mEye - m.mPivot).x / length (m.mEye - m.mPivot),
      (m.mEye - m.mPivot).y / length (m.mEye - m.mPivot),
      (m.mEye - m.mPivot).z / length (m.mEye - m.mPivot)⟩ := by
    simp only [normalize, Vec3.mul_def, mul_one_div]
  simp only [getCurrentBookmark, jumpToBookmark, sin_real, cos_real, asin_real, atan2_real,
    hdir, habs, hflip, heye, hnorm]
  simp

/-- The angle `atan2 (r sin θ, r cos θ)` for a positive radius is `θ` reduced to
`(-π, π]`. -/
theorem arg_polar (r θ : ℝ) (hr : 0 < r) :
    Complex.arg ⟨Real.cos θ * r, Real.sin θ * r⟩ = toIocMod Real.two_pi_pos (-Real.pi) θ := by
  have e : (⟨Real.cos θ * r, Real.sin θ * r⟩ : ℂ)
      = (r : ℂ) * (Complex.cos θ + Complex.sin θ * Complex.I) := by
    apply Complex.ext
    · simp [Complex.cos_ofReal_re, Complex.cos_ofReal_im, Complex.sin_ofReal_im, mul_comm]
    · simp [Complex.sin_ofReal_re, Complex.cos_ofReal_im, Complex.sin_ofReal_im, mul_comm]
  rw [e, Complex.arg_mul_cos_add_sin_mul_I_eq_toIocMod hr]

theorem toIocMod_pi_of_mem {θ : ℝ} (h1 : -Real.pi < θ) (h2 : θ ≤ Real.pi) :
    toIocMod Real.two_pi_pos (-Real.pi) θ = θ := by
  rw [toIocMod_eq_self]
  exact ⟨h1, by linarith⟩

theorem toIocMod_pi_exists (θ : ℝ) :
    ∃ k : ℤ, toIocMod Real.two_pi_pos (-Real.pi) θ = θ + 2 * Real.pi * k := by
  refine ⟨-toIocDiv Real.two_pi_pos (-Real.pi) θ, ?_⟩
  have h := toIocMod_add_toIocDiv_zsmul Real.two_pi_pos (-Real.pi) θ
  rw [zsmul_eq_mul] at h
  push_cast
  linarith

theorem MAX_PHI_pos : (0 : ℝ) < MAX_PHI := by
  have h := Real.pi_gt_three
  simp only [MAX_PHI, pi_real]
  linarith

theorem MAX_PHI_lt : (MAX_PHI : ℝ) < Real.pi / 2 := by
  simp only [MAX_PHI, pi_real]
  linarith

theorem clamp_mem (v : ℝ) {M : ℝ} (hM : 0 ≤ M) : -M ≤ clamp v (-M) M ∧ clamp v (-M) M ≤ M := by
  unfold clamp
  constructor
  · exact le_min (by linarith) (le_max_right _ _)
  · exact min_le_left _ _

theorem clamp_of_mem {v M : ℝ} (h1 : -M ≤ v) (h2 : v ≤ M) : clamp v (-M) M = v := by
  unfold clamp
  rw [max_eq_left h1, min_eq_right h2]

/-- The `GRABBING` update is a jump to the baseline angles shifted by the scaled pixel
deltas, at the current signed distance and pivot. -/
theorem grabUpdate_grabbing (m : OrbitManipulator ℝ) (hg : m.mGrabState = GrabState.GRABBING)
    (x y : Int) :
    grabUpdate m x y = jumpToBookmark m
      { phi := clamp (m.mGrabBookmark.phi + ((m.mGrabWinY - y : Int) : ℝ) * m.mProps.orbitSpeed.y)
          (-MAX_PHI) MAX_PHI
        theta := m.mGrabBookmark.theta + ((m.mGrabWinX - x : Int) : ℝ) * m.mProps.orbitSpeed.x
        distance := (getCurrentBookmark m).distance
        pivot := m.mPivot } := by
  simp [grabUpdate, grabUpdateRotate, hg, jumpToBookmark, getCurrentBookmark]

theorem distance_ne_zero (m : OrbitManipulator ℝ) (h : m.mEye ≠ m.mPivot) :
    (getCurrentBookmark m).distance ≠ 0 := by
  have hl := length_pos (sub_ne_zero_vec h)
  simp only [getCurrentBookmark]
  split
  · linarith
  · linarith

/-- The bookmark read after a `GRABBING` update from a state with the eye off the pivot. -/
theorem getCurrentBookmark_grabUpdate (m : OrbitManipulator ℝ)
    (hg : m.mGrabState = GrabState.GRABBING) (h : m.mEye ≠ m.mPivot) (x y : Int) :
    getCurrentBookmark (grabUpdate m x y) =
      { phi := clamp (m.mGrabBookmark.phi + ((m.mGrabWinY - y : Int) : ℝ) * m.mProps.orbitSpeed.y)
          (-MAX_PHI) MAX_PHI
        theta := toIocMod Real.two_pi_pos (-Real.pi)
          (m.mGrabBookmark.theta + ((m.mGrabWinX - x : Int) : ℝ) * m.mProps.orbitSpeed.x)
        distance := (getCurrentBookmark m).distance
        pivot := m.mPivot } := by
  rw [grabUpdate_grabbing m hg, getCurrentBookmark_jumpToBookmark]
  swap
  · exact distance_ne_zero m h
  obtain ⟨c1, c2⟩ := clamp_mem (m.mGrabBookmark.phi
    + ((m.mGrabWinY - y : Int) : ℝ) * m.mProps.orbitSpeed.y) MAX_PHI_pos.le
  have hlt := MAX_PHI_lt
  simp only
  rw [Real.arcsin_sin (by linarith) (by linarith),
    arg_polar _ _ (Real.cos_pos_of_mem_Ioo ⟨by linarith, by linarith⟩)]

end OrbitLemmas

/-! ## Orbit mode: bookmark round trip -/

section OrbitRoundTrip

open OrbitManipulator

theorem sqrt_25 : Real.sqrt 25 = 5 := by
  rw [show (25 : ℝ) = 5 * 5 by norm_num]
  exact Real.sqrt_mul_self (by norm_num)

theorem scenarioOrbit_eye_ne_pivot :
    (scenarioOrbit : OrbitManipulator ℝ).mEye ≠ (scenarioOrbit : OrbitManipulator ℝ).mPivot := by
  intro h
  have hz := congrArg Vec3.z h
  simp [scenarioOrbit, OrbitManipulator.new, Manipulator.new, scenarioProps, zeroProps,
    Vec3.add_def] at hz

theorem unitOrbit_eye_ne_pivot :
    (unitOrbit : OrbitManipulator ℝ).mEye ≠ (unitOrbit : OrbitManipulator ℝ).mPivot := by
  intro h
  have hz := congrArg Vec3.z h
  simp [unitOrbit, OrbitManipulator.new, Manipulator.new, zeroProps, Vec3.add_def] at hz

/-- Claim C1 as stated fails: in the home view of the construction scenario (eye `(0,0,5)`,
target and pivot `(0,0,0)`, so eye differs from pivot) the call
`jumpToBookmark (getCurrentBookmark ())` moves the target from `(0,0,0)` to `(0,0,4)`. -/
theorem orbit_roundtrip_target_counterexample :
    (scenarioOrbit : OrbitManipulator ℝ).mEye ≠ (scenarioOrbit : OrbitManipulator ℝ).mPivot ∧
    (scenarioOrbit : OrbitManipulator ℝ).mTarget = ⟨0, 0, 0⟩ ∧
    (roundTrip (scenarioOrbit : OrbitManipulator ℝ)).mTarget = ⟨0, 0, 4⟩ ∧
    (roundTrip (scenarioOrbit : OrbitManipulator ℝ)).mTarget
      ≠ (scenarioOrbit : OrbitManipulator ℝ).mTarget := by
  have h := jumpToBookmark_getCurrentBookmark _ scenarioOrbit_eye_ne_pivot
  have ht : (roundTrip (scenarioOrbit : OrbitManipulator ℝ)).mTarget = ⟨0, 0, 4⟩ := by
    rw [roundTrip, h.2.2.2]
    simp [scenarioOrbit, OrbitManipulator.new, Manipulator.new, scenarioProps, zeroProps,
      Vec3.add_def, Vec3.sub_def, Vec3.mul_def, normalize, length, dot, sqrt_25]
    norm_num
  refine ⟨scenarioOrbit_eye_ne_pivot, rfl, ht, ?_⟩
  rw [ht]
  intro h4
  have hz := congrArg Vec3.z h4
  simp [scenarioOrbit, OrbitManipulator.new, Manipulator.new, scenarioProps, zeroProps] at hz

/-- Claim C1, amended: for every orbit state with eye different from pivot, the call
`jumpToBookmark (getCurrentBookmark ())` leaves the eye (and the pivot and the flipped flag)
exactly as it was, and sets the target to the point one unit from the eye along the unit
vector from pivot to eye, towards the pivot when not flipped and away from it when flipped;
hence the target is reproduced exactly when it already was that point. -/
theorem orbit_roundtrip_eye_and_target (m : OrbitManipulator ℝ) (h : m.mEye ≠ m.mPivot) :
    (roundTrip m).mEye = m.mEye ∧
    (roundTrip m).mPivot = m.mPivot ∧
    (roundTrip m).mFlipped = m.mFlipped ∧
    (roundTrip m).mTarget =
      m.mEye + normalize (m.mEye - m.mPivot) * (if m.mFlipped then (1 : ℝ) else -1) ∧
    ((roundTrip m).mTarget = m.mTarget ↔
      m.mTarget = m.mEye + normalize (m.mEye - m.mPivot) * (if m.mFlipped then (1 : ℝ) else -1)) := by
  obtain ⟨h1, h2, h3, h4⟩ := jumpToBookmark_getCurrentBookmark m h
  refine ⟨h1, h2, h3, h4, ?_⟩
  rw [roundTrip, h4]
  exact eq_comm

/-- Witness for C1 (amended): with home vector `(0, 0, 1)` the home view has its target
one unit from the eye, and the round trip reproduces both eye and target. -/
theorem orbit_roundtrip_eye_and_target_witness :
    (unitOrbit : OrbitManipulator ℝ).mEye ≠ (unitOrbit : OrbitManipulator ℝ).mPivot ∧
    (roundTrip (unitOrbit : OrbitManipulator ℝ)).mEye = (unitOrbit : OrbitManipulator ℝ).mEye ∧
    (roundTrip (unitOrbit : OrbitManipulator ℝ)).mTarget
      = (unitOrbit : OrbitManipulator ℝ).mTarget := by
  have h := orbit_roundtrip_eye_and_target unitOrbit unitOrbit_eye_ne_pivot
  refine ⟨unitOrbit_eye_ne_pivot, h.1, h.2.2.2.2.mpr ?_⟩
  simp [unitOrbit, OrbitManipulator.new, Manipulator.new, zeroProps,
    Vec3.add_def, Vec3.sub_def, Vec3.mul_def, normalize, length, dot]

end OrbitRoundTrip

/-! ## Construction and `getLookAt` -/

section LookAt

theorem sqrt_eq_of_mul_self {x y : ℝ} (hy : 0 ≤ y) (h : y * y = x) : Real.sqrt x = y := by
  rw [← h, Real.sqrt_mul_self hy]

/-- Claim C3 fails on the code: `create (ORBIT, cfg)` for the scenario configuration does
not merge the defaults, so `getLookAt` returns eye `(0,0,5)`, target `(0,0,0)` and the zero
vector as up; the expected up `(0,1,0)` is obtained only once `setProperties (cfg)` has been
called on the new manipulator. -/
theorem create_scenario_getLookAt :
    (create Mode.ORBIT (scenarioProps : Properties ℝ)).getLookAt
      = (⟨0, 0, 5⟩, ⟨0, 0, 0⟩, ⟨0, 0, 0⟩) ∧
    ((create Mode.ORBIT (scenarioProps : Properties ℝ)).base.setProperties scenarioProps).getLookAt
      = (⟨0, 0, 5⟩, ⟨0, 0, 0⟩, ⟨0, 1, 0⟩) := by
  constructor
  · simp [create, Handle.getLookAt, Handle.base, Manipulator.getLookAt, OrbitManipulator.new,
      Manipulator.new, scenarioProps, zeroProps, Vec3.add_def, Vec3.sub_def, Vec3.mul_def,
      normalize, length, dot, cross]
  · simp [create, Handle.base, Manipulator.getLookAt, Manipulator.setProperties,
      OrbitManipulator.new, Manipulator.new, scenarioProps, zeroProps, Vec3.add_def,
      Vec3.sub_def, Vec3.mul_def, Vec3.splat, Vec4.splat, Vec2.splat, normalize, length, dot,
      cross, sqrt_25]

theorem tiltedView_eye_ne_target :
    (tiltedView : Manipulator ℝ).mEye ≠ (tiltedView : Manipulator ℝ).mTarget := by
  intro h
  have hz := congrArg Vec3.z h
  simp [tiltedView, OrbitManipulator.new, Manipulator.new, zeroProps, Vec3.add_def] at hz

theorem uprightView_eye_ne_target :
    (uprightView : Manipulator ℝ).mEye ≠ (uprightView : Manipulator ℝ).mTarget := by
  intro h
  have hz := congrArg Vec3.z h
  simp [uprightView, OrbitManipulator.new, Manipulator.new, scenarioProps, zeroProps,
    Vec3.add_def] at hz

/-- The up vector of `getLookAt` in terms of the gaze `g` and the configured up vector. -/
theorem getLookAt_up (m : Manipulator ℝ) :
    m.getLookAt.2.2
      = cross (cross (normalize (m.mTarget - m.mEye)) m.mProps.homeUpVector)
          (normalize (m.mTarget - m.mEye)) := rfl

/-- Squared length of `(g × h) × g` for a unit vector `g`. -/
theorem dot_cross_cross_of_unit (g h : Vec3 ℝ) (hg : dot g g = 1) :
    dot (cross (cross g h) g) (cross (cross g h) g) = dot h h - (dot g h) ^ 2 := by
  simp only [dot, cross] at hg ⊢
  linear_combination
    ((g.x * g.x + g.y * g.y + g.z * g.z + 1) * (h.x * h.x + h.y * h.y + h.z * h.z)
      - (g.x * h.x + g.y * h.y + g.z * h.z) ^ 2) * hg

/-- Claim C4 as stated fails: at eye `(0,3,4)`, target `(0,0,0)` with the unit up vector
`(0,1,0)` (eye differs from target, the up vector is non-zero and not collinear with the
gaze) the up vector returned by `getLookAt` is `(0, 16/25, -12/25)`, of length `4/5`. -/
theorem getLookAt_up_not_unit_counterexample :
    (tiltedView : Manipulator ℝ).mEye ≠ (tiltedView : Manipulator ℝ).mTarget ∧
    (tiltedView : Manipulator ℝ).mProps.homeUpVector ≠ ⟨0, 0, 0⟩ ∧
    cross (normalize ((tiltedView : Manipulator ℝ).mTarget - (tiltedView : Manipulator ℝ).mEye))
      (tiltedView : Manipulator ℝ).mProps.homeUpVector ≠ ⟨0, 0, 0⟩ ∧
    (tiltedView : Manipulator ℝ).getLookAt.2.2 = ⟨0, 16 / 25, -(12 / 25)⟩ ∧
    length (tiltedView : Manipulator ℝ).getLookAt.2.2 = 4 / 5 ∧
    length (tiltedView : Manipulator ℝ).getLookAt.2.2 ≠ 1 := by
  have hup : (tiltedView : Manipulator ℝ).getLookAt.2.2 = ⟨0, 16 / 25, -(12 / 25)⟩ := by
    simp only [tiltedView, Manipulator.getLookAt, OrbitManipulator.new, Manipulator.new,
      zeroProps, Vec3.add_def, Vec3.sub_def, Vec3.mul_def, normalize, length, dot, cross,
      sqrt_real]
    norm_num [sqrt_25]
  have hlen : length (tiltedView : Manipulator ℝ).getLookAt.2.2 = 4 / 5 := by
    rw [hup]
    simp only [length, dot, sqrt_real]
    exact sqrt_eq_of_mul_self (by norm_num) (by norm_num)
  refine ⟨tiltedView_eye_ne_target, ?_, ?_, hup, hlen, ?_⟩
  · intro h
    have hy := congrArg Vec3.y h
    simp [tiltedView, OrbitManipulator.new, Manipulator.new, zeroProps] at hy
  · intro h
    have hx := congrArg Vec3.x h
    simp only [tiltedView, OrbitManipulator.new, Manipulator.new,
      zeroProps, Vec3.add_def, Vec3.sub_def, Vec3.mul_def, normalize, length, dot, cross,
      sqrt_real] at hx
    norm_num [sqrt_25] at hx
  · rw [hlen]
    norm_num

/-- Claim C4, amended: for every state with eye different from target the up vector
returned by `getLookAt` is orthogonal to the gaze and its squared length is
`|homeUpVector|^2 - (gaze . homeUpVector)^2` (no normalisation is applied); when the
configured up vector has unit length and is orthogonal to the gaze, the returned up vector
is the configured one, has unit length, and `(right, up, gaze)` is orthonormal. -/
theorem getLookAt_up_length (m : Manipulator ℝ) (h : m.mEye ≠ m.mTarget) :
    dot m.getLookAt.2.2 (normalize (m.mTarget - m.mEye)) = 0 ∧
    dot m.getLookAt.2.2 m.getLookAt.2.2
      = dot m.mProps.homeUpVector m.mProps.homeUpVector
        - (dot (normalize (m.mTarget - m.mEye)) m.mProps.homeUpVector) ^ 2 ∧
    (dot m.mProps.homeUpVector m.mProps.homeUpVector = 1 →
      dot (normalize (m.mTarget - m.mEye)) m.mProps.homeUpVector = 0 →
      m.getLookAt.2.2 = m.mProps.homeUpVector ∧
      length m.getLookAt.2.2 = 1 ∧
      length (normalize (m.mTarget - m.mEye)) = 1 ∧
      length (cross (normalize (m.mTarget - m.mEye)) m.mProps.homeUpVector) = 1 ∧
      dot (cross (normalize (m.mTarget - m.mEye)) m.mProps.homeUpVector) m.getLookAt.2.2 = 0 ∧
      dot (cross (normalize (m.mTarget - m.mEye)) m.mProps.homeUpVector)
        (normalize (m.mTarget - m.mEye)) = 0) := by
  have hg : dot (normalize (m.mTarget - m.mEye)) (normalize (m.mTarget - m.mEye)) = 1 :=
    dot_normalize_self (sub_ne_zero_vec (Ne.symm h))
  rw [getLookAt_up]
  generalize normalize (m.mTarget - m.mEye) = g at hg ⊢
  generalize m.mProps.homeUpVector = u
  refine ⟨dot_cross_cross_self g u, dot_cross_cross_of_unit g u hg, ?_⟩
  intro hu hgu
  have hup : cross (cross g u) g = u := by
    rw [cross_cross_self, hg, hgu]
    simp only [Vec3.mul_def, Vec3.sub_def]
    ext <;> simp
  have hr : dot (cross g u) (cross g u) = 1 := by
    simp only [dot, cross] at hg hu hgu ⊢
    linear_combination (u.x * u.x + u.y * u.y + u.z * u.z) * hg + hu
      - (g.x * u.x + g.y * u.y + g.z * u.z) * hgu
  refine ⟨hup, ?_, length_of_dot_eq_one hg, length_of_dot_eq_one hr, ?_, ?_⟩
  · rw [hup]
    exact length_of_dot_eq_one hu
  · rw [hup]
    simp only [dot, cross]
    ring
  · simp only [dot, cross]
    ring

/-- Witness for C4 (amended): the scenario view with up vector `(0,1,0)` has eye different
from target and `getLookAt` returns an up vector of length one. -/
theorem getLookAt_up_length_witness :
    (uprightView : Manipulator ℝ).mEye ≠ (uprightView : Manipulator ℝ).mTarget ∧
    length (uprightView : Manipulator ℝ).getLookAt.2.2 = 1 := by
  refine ⟨uprightView_eye_ne_target,
    ((getLookAt_up_length uprightView uprightView_eye_ne_target).2.2 ?_ ?_).2.1⟩
  · simp [uprightView, OrbitManipulator.new, Manipulator.new, scenarioProps, zeroProps, dot]
  · simp [uprightView, OrbitManipulator.new, Manipulator.new, scenarioProps, zeroProps, dot,
      normalize, Vec3.mul_def, Vec3.sub_def, Vec3.add_def]

/-- Claim C5: for every state with eye different from target, `getLookAt` returns the stored
eye and the stored target verbatim (it is a pure query of the state), the returned up
vector is `(gaze x homeUpVector) x gaze` with `gaze = normalize (target - eye)`, which is
the component of the configured up vector orthogonal to the gaze, and `dot (up, gaze) = 0`. -/
theorem getLookAt_eye_target_up (m : Manipulator ℝ) (h : m.mEye ≠ m.mTarget) :
    m.getLookAt.1 = m.mEye ∧
    m.getLookAt.2.1 = m.mTarget ∧
    m.getLookAt.2.2
      = cross (cross (normalize (m.mTarget - m.mEye)) m.mProps.homeUpVector)
          (normalize (m.mTarget - m.mEye)) ∧
    m.getLookAt.2.2
      = m.mProps.homeUpVector - normalize (m.mTarget - m.mEye)
          * dot (normalize (m.mTarget - m.mEye)) m.mProps.homeUpVector ∧
    dot m.getLookAt.2.2 (normalize (m.mTarget - m.mEye)) = 0 := by
  have hg : dot (normalize (m.mTarget - m.mEye)) (normalize (m.mTarget - m.mEye)) = 1 :=
    dot_normalize_self (sub_ne_zero_vec (Ne.symm h))
  refine ⟨rfl, rfl, rfl, ?_, ?_⟩
  · rw [getLookAt_up, cross_cross_self, hg]
    simp only [Vec3.mul_def, Vec3.sub_def]
    ext <;> simp
  · rw [getLookAt_up]
    exact dot_cross_cross_self _ _

/-- Witness for C5: the tilted view at eye `(0,3,4)` has eye different from target; its
`getLookAt` returns eye and target verbatim and an up vector orthogonal to the gaze. -/
theorem getLookAt_eye_target_up_witness :
    (tiltedView : Manipulator ℝ).mEye ≠ (tiltedView : Manipulator ℝ).mTarget ∧
    (tiltedView : Manipulator ℝ).getLookAt.1 = ⟨0, 3, 4⟩ ∧
    (tiltedView : Manipulator ℝ).getLookAt.2.1 = ⟨0, 0, 0⟩ ∧
    dot (tiltedView : Manipulator ℝ).getLookAt.2.2
      (normalize ((tiltedView : Manipulator ℝ).mTarget - (tiltedView : Manipulator ℝ).mEye)) = 0 := by
  have h := getLookAt_eye_target_up tiltedView tiltedView_eye_ne_target
  refine ⟨tiltedView_eye_ne_target, ?_, ?_, h.2.2.2.2⟩
  · rw [h.1]
    simp [tiltedView, OrbitManipulator.new, Manipulator.new, zeroProps, Vec3.add_def]
  · rw [h.2.1]
    simp [tiltedView, OrbitManipulator.new, Manipulator.new, zeroProps]

end LookAt

/-! ## Orbit mode: rotation -/

section OrbitRotation

open OrbitManipulator

/-- Claim C10: for every orbit bookmark `b` with `-π/2 < phi < π/2`, `-π < theta ≤ π` and
`distance ≠ 0`, `getCurrentBookmark ()` called directly after `jumpToBookmark (b)` returns
the phi, theta, signed distance and pivot of `b`. -/
theorem getCurrentBookmark_inverts_jumpToBookmark (m : OrbitManipulator ℝ) (b : OrbitParams ℝ)
    (hphi1 : -(Real.pi / 2) < b.phi) (hphi2 : b.phi < Real.pi / 2)
    (htheta1 : -Real.pi < b.theta) (htheta2 : b.theta ≤ Real.pi) (hd : b.distance ≠ 0) :
    getCurrentBookmark (jumpToBookmark m b) = b := by
  rw [getCurrentBookmark_jumpToBookmark m b hd, Real.arcsin_sin hphi1.le hphi2.le,
    arg_polar _ _ (Real.cos_pos_of_mem_Ioo ⟨hphi1, hphi2⟩), toIocMod_pi_of_mem htheta1 htheta2]

/-- Witness for C10: the bookmark `phi = 0, theta = 0, distance = -5, pivot = 0` (a flipped
view) is read back unchanged after jumping to it. -/
theorem getCurrentBookmark_inverts_jumpToBookmark_witness :
    getCurrentBookmark (jumpToBookmark (zoomOrbit : OrbitManipulator ℝ)
      { phi := 0, theta := 0, distance := -5, pivot := ⟨0, 0, 0⟩ })
      = { phi := 0, theta := 0, distance := -5, pivot := ⟨0, 0, 0⟩ } :=
  getCurrentBookmark_inverts_jumpToBookmark zoomOrbit
    { phi := 0, theta := 0, distance := -5, pivot := ⟨0, 0, 0⟩ }
    (by simp only; linarith [Real.pi_pos]) (by simp only; linarith [Real.pi_pos])
    (by simp only; linarith [Real.pi_pos]) (by simp only; linarith [Real.pi_pos])
    (by norm_num)

/-- Claim C6: for every orbit state with eye different from pivot, every grab start
`(x0, y0)` and every update pixel `(x1, y1)`, after `grabBegin (x0, y0, false)` and
`grabUpdate (x1, y1)` the phi of `getCurrentBookmark ()` satisfies `|phi| ≤ π/2 - 0.001`. -/
theorem orbit_rotate_phi_bounded (m : OrbitManipulator ℝ) (h : m.mEye ≠ m.mPivot)
    (x0 y0 x1 y1 : Int) :
    |(getCurrentBookmark (grabUpdate (grabBegin m x0 y0 false) x1 y1)).phi|
      ≤ Real.pi / 2 - 1 / 1000 := by
  have hb : (grabBegin m x0 y0 false).mEye ≠ (grabBegin m x0 y0 false).mPivot := h
  rw [getCurrentBookmark_grabUpdate (grabBegin m x0 y0 false) rfl hb x1 y1]
  have hM : (MAX_PHI : ℝ) = Real.pi / 2 - 1 / 1000 := rfl
  rw [← hM]
  exact abs_le.mpr (clamp_mem _ MAX_PHI_pos.le)

/-- Witness for C6: on the home view of the rotation scenario a drag from `(400, 300)` to
`(450, -1000000)` keeps `|phi| ≤ π/2 - 0.001`. -/
theorem orbit_rotate_phi_bounded_witness :
    (rotateOrbit : OrbitManipulator ℝ).mEye ≠ (rotateOrbit : OrbitManipulator ℝ).mPivot ∧
    |(getCurrentBookmark (grabUpdate (grabBegin (rotateOrbit : OrbitManipulator ℝ) 400 300 false)
        450 (-1000000))).phi| ≤ Real.pi / 2 - 1 / 1000 := by
  have hne : (rotateOrbit : OrbitManipulator ℝ).mEye ≠ (rotateOrbit : OrbitManipulator ℝ).mPivot := by
    intro h
    have hz := congrArg Vec3.z h
    simp [rotateOrbit, OrbitManipulator.new, Manipulator.new, scenarioProps, zeroProps,
      Vec3.add_def] at hz
  exact ⟨hne, orbit_rotate_phi_bounded rotateOrbit hne 400 300 450 (-1000000)⟩

theorem rotateOrbit_eye_ne_pivot :
    (rotateOrbit : OrbitManipulator ℝ).mEye ≠ (rotateOrbit : OrbitManipulator ℝ).mPivot := by
  intro h
  have hz := congrArg Vec3.z h
  simp [rotateOrbit, OrbitManipulator.new, Manipulator.new, scenarioProps, zeroProps,
    Vec3.add_def] at hz

theorem rotateOrbit_bookmark :
    getCurrentBookmark (rotateOrbit : OrbitManipulator ℝ)
      = { phi := 0, theta := 0, distance := 5, pivot := ⟨0, 0, 0⟩ } := by
  have e : (⟨1, 0⟩ : ℂ) = 1 := by apply Complex.ext <;> simp
  simp [getCurrentBookmark, rotateOrbit, OrbitManipulator.new, Manipulator.new, scenarioProps,
    zeroProps, Vec3.add_def, Vec3.sub_def, length, dot, sqrt_25, e]

/-- Claim C7 as stated fails: in the scenario `grabBegin (400,300,false)`,
`grabUpdate (450,300)`, `grabEnd ()` on the home view with orbit speed `(0.01, 0.01)` the
theta at grab start is `0` and the theta afterwards is `-1/2`, which is not
`0 + (450 - 400) * orbitSpeed.x = 1/2` modulo `2π`. -/
theorem orbit_rotate_theta_sign_counterexample :
    (getCurrentBookmark (rotateOrbit : OrbitManipulator ℝ)).theta = 0 ∧
    (getCurrentBookmark (rotateScenario : OrbitManipulator ℝ)).theta = -(1 / 2) ∧
    ¬ ∃ k : ℤ, (getCurrentBookmark (rotateScenario : OrbitManipulator ℝ)).theta
      = (getCurrentBookmark (rotateOrbit : OrbitManipulator ℝ)).theta
        + ((450 - 400 : Int) : ℝ) * (rotateOrbit : OrbitManipulator ℝ).mProps.orbitSpeed.x
        + 2 * Real.pi * k := by
  have h0 : (getCurrentBookmark (rotateOrbit : OrbitManipulator ℝ)).theta = 0 := by
    rw [rotateOrbit_bookmark]
  have h1 : (getCurrentBookmark (rotateScenario : OrbitManipulator ℝ)).theta = -(1 / 2) := by
    have e : getCurrentBookmark (rotateScenario : OrbitManipulator ℝ)
        = getCurrentBookmark (grabUpdate (grabBegin (rotateOrbit : OrbitManipulator ℝ)
            400 300 false) 450 300) := rfl
    have hb : (grabBegin (rotateOrbit : OrbitManipulator ℝ) 400 300 false).mEye
        ≠ (grabBegin (rotateOrbit : OrbitManipulator ℝ) 400 300 false).mPivot :=
      rotateOrbit_eye_ne_pivot
    rw [e, getCurrentBookmark_grabUpdate _ rfl hb]
    have hg : (grabBegin (rotateOrbit : OrbitManipulator ℝ) 400 300 false).mGrabBookmark.theta
        = 0 := h0
    have hs : (grabBegin (rotateOrbit : OrbitManipulator ℝ) 400 300 false).mProps.orbitSpeed.x
        = 1 / 100 := rfl
    have hx : (grabBegin (rotateOrbit : OrbitManipulator ℝ) 400 300 false).mGrabWinX = 400 := rfl
    simp only [hg, hs, hx]
    have hv : (0 : ℝ) + ((400 - 450 : Int) : ℝ) * (1 / 100) = -(1 / 2) := by norm_num
    rw [hv]
    exact toIocMod_pi_of_mem (by linarith [Real.pi_gt_three]) (by linarith [Real.pi_gt_three])
  refine ⟨h0, h1, ?_⟩
  rintro ⟨k, hk⟩
  rw [h0, h1] at hk
  have hs : (rotateOrbit : OrbitManipulator ℝ).mProps.orbitSpeed.x = 1 / 100 := rfl
  rw [hs] at hk
  have hpi := Real.pi_gt_three
  have hk2 : 2 * Real.pi * (k : ℝ) = -1 := by
    have hv : ((450 - 400 : Int) : ℝ) * (1 / 100) = 1 / 2 := by norm_num
    rw [hv] at hk
    linarith
  rcases le_or_lt 0 k with hk0 | hk0
  · have : (0 : ℝ) ≤ k := by exact_mod_cast hk0
    nlinarith
  · have : (k : ℝ) ≤ -1 := by exact_mod_cast Int.le_sub_one_of_lt hk0
    nlinarith

/-- Claim C7, amended: for every orbit state with eye different from pivot, after
`grabBegin (x0, y0, false)` and `grabUpdate (x1, y1)` (and also after a following
`grabEnd ()`) the theta of `getCurrentBookmark ()` lies in `(-π, π]` and equals the theta
at grab start shifted by `(x0 - x1) * orbitSpeed.x` radians modulo `2π`: the shift has the
opposite sign of the pixel motion. -/
theorem orbit_rotate_theta (m : OrbitManipulator ℝ) (h : m.mEye ≠ m.mPivot)
    (x0 y0 x1 y1 : Int) :
    (getCurrentBookmark (grabEnd (grabUpdate (grabBegin m x0 y0 false) x1 y1))).theta
      = (getCurrentBookmark (grabUpdate (grabBegin m x0 y0 false) x1 y1)).theta ∧
    (getCurrentBookmark (grabUpdate (grabBegin m x0 y0 false) x1 y1)).theta
      ∈ Set.Ioc (-Real.pi) Real.pi ∧
    ∃ k : ℤ, (getCurrentBookmark (grabUpdate (grabBegin m x0 y0 false) x1 y1)).theta
      = (getCurrentBookmark m).theta + ((x0 - x1 : Int) : ℝ) * m.mProps.orbitSpeed.x
        + 2 * Real.pi * k := by
  have hb : (grabBegin m x0 y0 false).mEye ≠ (grabBegin m x0 y0 false).mPivot := h
  refine ⟨rfl, ?_, ?_⟩
  · rw [getCurrentBookmark_grabUpdate (grabBegin m x0 y0 false) rfl hb x1 y1]
    have hm := toIocMod_mem_Ioc Real.two_pi_pos (-Real.pi)
      ((grabBegin m x0 y0 false).mGrabBookmark.theta
        + (((grabBegin m x0 y0 false).mGrabWinX - x1 : Int) : ℝ)
          * (grabBegin m x0 y0 false).mProps.orbitSpeed.x)
    refine ⟨hm.1, ?_⟩
    have h2 := hm.2
    simp only at h2 ⊢
    linarith
  · rw [getCurrentBookmark_grabUpdate (grabBegin m x0 y0 false) rfl hb x1 y1]
    exact toIocMod_pi_exists _

/-- Witness for C7 (amended): the rotation scenario starts with the eye off the pivot, and
its theta is the start theta shifted by `(400 - 450) * orbitSpeed.x` modulo `2π`. -/
theorem orbit_rotate_theta_witness :
    (rotateOrbit : OrbitManipulator ℝ).mEye ≠ (rotateOrbit : OrbitManipulator ℝ).mPivot ∧
    ∃ k : ℤ, (getCurrentBookmark (grabUpdate (grabBegin (rotateOrbit : OrbitManipulator ℝ)
        400 300 false) 450 300)).theta
      = (getCurrentBookmark (rotateOrbit : OrbitManipulator ℝ)).theta
        + ((400 - 450 : Int) : ℝ) * (rotateOrbit : OrbitManipulator ℝ).mProps.orbitSpeed.x
        + 2 * Real.pi * k :=
  ⟨rotateOrbit_eye_ne_pivot,
    (orbit_rotate_theta rotateOrbit rotateOrbit_eye_ne_pivot 400 300 450 300).2.2⟩

end OrbitRotation

/-! ## Orbit mode: zoom through the pivot -/

section OrbitZoom

open OrbitManipulator

/-- One `zoom` step: eye and target move by the same vector `gaze * zoomSpeed * s`, the
pivot stays, and the flipped flag toggles exactly when
`dot (pivot - eye_before, pivot - eye_after) < 0`. -/
theorem zoom_step (m : OrbitManipulator ℝ) (x y : Int) (s : ℝ) :
    (zoom m x y s).mEye = m.mEye + normalize (m.mTarget - m.mEye) * m.mProps.zoomSpeed * s ∧
    (zoom m x y s).mTarget
      = m.mTarget + normalize (m.mTarget - m.mEye) * m.mProps.zoomSpeed * s ∧
    (zoom m x y s).mPivot = m.mPivot ∧
    ((zoom m x y s).mFlipped = !m.mFlipped ↔
      dot (m.mPivot - m.mEye) (m.mPivot - (zoom m x y s).mEye) < 0) := by
  refine ⟨rfl, rfl, rfl, ?_⟩
  simp only [zoom]
  by_cases h : dot (m.mPivot - m.mEye)
      (m.mPivot - (m.mEye + normalize (m.mTarget - m.mEye) * m.mProps.zoomSpeed * s)) < 0
  · simp [h]
  · simp [h]

/-- One `zoom` step from a state whose pivot lies on the gaze line, at signed distance `σ`
ahead of the eye: the pivot stays on the gaze line, at signed distance
`σ - zoomSpeed * s`, and the flipped flag toggles exactly when the two signed distances
have strictly opposite signs. -/
theorem zoom_step_collinear (m : OrbitManipulator ℝ) (x y : Int) (s σ : ℝ)
    (hne : m.mEye ≠ m.mTarget)
    (hcol : m.mPivot - m.mEye = normalize (m.mTarget - m.mEye) * σ) :
    (zoom m x y s).mPivot - (zoom m x y s).mEye
      = normalize ((zoom m x y s).mTarget - (zoom m x y s).mEye)
          * (σ - m.mProps.zoomSpeed * s) ∧
    ((zoom m x y s).mFlipped = !m.mFlipped ↔ σ * (σ - m.mProps.zoomSpeed * s) < 0) := by
  have hg := dot_normalize_self (sub_ne_zero_vec (Ne.symm hne))
  have hgaze : (zoom m x y s).mTarget - (zoom m x y s).mEye = m.mTarget - m.mEye := by
    simp only [zoom, Vec3.add_def, Vec3.sub_def]
    ext <;> simp
  have hx := congrArg Vec3.x hcol
  have hy := congrArg Vec3.y hcol
  have hz := congrArg Vec3.z hcol
  have hv1 : (zoom m x y s).mPivot - (zoom m x y s).mEye
      = normalize (m.mTarget - m.mEye) * (σ - m.mProps.zoomSpeed * s) := by
    simp only [Vec3.sub_def, Vec3.mul_def] at hx hy hz
    simp only [zoom, Vec3.add_def, Vec3.sub_def, Vec3.mul_def]
    ext
    · simp only
      linarith
    · simp only
      linarith
    · simp only
      linarith
  refine ⟨by rw [hgaze, hv1], ?_⟩
  have hdot : dot (m.mPivot - m.mEye) (m.mPivot - (zoom m x y s).mEye)
      = σ * (σ - m.mProps.zoomSpeed * s) := by
    have hp : (zoom m x y s).mPivot = m.mPivot := rfl
    rw [← hp, hv1, hp, hcol]
    simp only [dot, Vec3.mul_def] at hg ⊢
    linear_combination σ * (σ - m.mProps.zoomSpeed * s) * hg
  rw [(zoom_step m x y s).2.2.2, hdot]

/-- Claim C9 fails on the code: with zoom speed `1` and the home view at eye `(0,0,5)`,
pivot `(0,0,0)`, the call `zoom (0,0,5)` puts the eye exactly on the pivot and a second
`zoom (0,0,5)` carries it on to `(0,0,-5)`, the other side of the pivot, yet the flipped
flag stays clear and the bookmark distance stays `+5`; the single call `zoom (0,0,10)`
reaches the same eye position with the distance `-5`. -/
theorem orbit_zoom_landing_on_pivot :
    (zoomOrbit : OrbitManipulator ℝ).mEye = ⟨0, 0, 5⟩ ∧
    (zoomOrbit : OrbitManipulator ℝ).mPivot = ⟨0, 0, 0⟩ ∧
    (getCurrentBookmark (zoomOrbit : OrbitManipulator ℝ)).distance = 5 ∧
    (zoom (zoomOrbit : OrbitManipulator ℝ) 0 0 5).mEye = ⟨0, 0, 0⟩ ∧
    (zoom (zoom (zoomOrbit : OrbitManipulator ℝ) 0 0 5) 0 0 5).mEye = ⟨0, 0, -5⟩ ∧
    (zoom (zoom (zoomOrbit : OrbitManipulator ℝ) 0 0 5) 0 0 5).mPivot = ⟨0, 0, 0⟩ ∧
    (zoom (zoom (zoomOrbit : OrbitManipulator ℝ) 0 0 5) 0 0 5).mFlipped = false ∧
    (getCurrentBookmark (zoom (zoom (zoomOrbit : OrbitManipulator ℝ) 0 0 5) 0 0 5)).distance
      = 5 ∧
    (zoom (zoomOrbit : OrbitManipulator ℝ) 0 0 10).mEye = ⟨0, 0, -5⟩ ∧
    (getCurrentBookmark (zoom (zoomOrbit : OrbitManipulator ℝ) 0 0 10)).distance = -5 := by
  refine ⟨?_, rfl, ?_, ?_, ?_, rfl, ?_, ?_, ?_, ?_⟩
  · simp [zoomOrbit, OrbitManipulator.new, Manipulator.new, zeroProps, Vec3.add_def]
  · simp [getCurrentBookmark, zoomOrbit, OrbitManipulator.new, Manipulator.new, zeroProps,
      Vec3.add_def, Vec3.sub_def, length, dot, sqrt_25]
  · simp [zoom, zoomOrbit, OrbitManipulator.new, Manipulator.new, zeroProps,
      Vec3.add_def, Vec3.sub_def, Vec3.mul_def, normalize, length, dot, sqrt_25]
  · simp [zoom, zoomOrbit, OrbitManipulator.new, Manipulator.new, zeroProps,
      Vec3.add_def, Vec3.sub_def, Vec3.mul_def, normalize, length, dot, sqrt_25]
  · simp [zoom, zoomOrbit, OrbitManipulator.new, Manipulator.new, zeroProps,
      Vec3.add_def, Vec3.sub_def, Vec3.mul_def, normalize, length, dot, sqrt_25]
  · simp [getCurrentBookmark, zoom, zoomOrbit, OrbitManipulator.new, Manipulator.new, zeroProps,
      Vec3.add_def, Vec3.sub_def, Vec3.mul_def, normalize, length, dot, sqrt_25]
  · simp [zoom, zoomOrbit, OrbitManipulator.new, Manipulator.new, zeroProps,
      Vec3.add_def, Vec3.sub_def, Vec3.mul_def, normalize, length, dot, sqrt_25]
    norm_num
  · simp [getCurrentBookmark, zoom, zoomOrbit, OrbitManipulator.new, Manipulator.new, zeroProps,
      Vec3.add_def, Vec3.sub_def, Vec3.mul_def, normalize, length, dot, sqrt_25]
    norm_num [sqrt_25]

end OrbitZoom

/-! ## Map mode: bookmark round trip -/

section MapRoundTrip

open MapManipulator

theorem tan_fov_90 : Real.tan ((90 : ℝ) * Real.pi / 180 / 2) = 1 := by
  rw [show (90 : ℝ) * Real.pi / 180 / 2 = Real.pi / 4 by ring]
  exact Real.tan_pi_div_four

/-- The state `mapHome`: eye `(0,0,5)` straight above the target `(0,0,0)`. -/
theorem mapHome_state :
    (mapHome : MapManipulator ℝ).mEye = ⟨0, 0, 5⟩ ∧
    (mapHome : MapManipulator ℝ).mTarget = ⟨0, 0, 0⟩ ∧
    (mapHome : MapManipulator ℝ).mProps = mapProps := by
  refine ⟨?_, ?_, rfl⟩
  · simp [mapHome, MapManipulator.jumpToBookmark, MapManipulator.new, Manipulator.new,
      mapProps, zeroProps, Vec4.xyz, cross, normalize, length, dot, Vec3.add_def,
      Vec3.mul_def, Vec3.smul_def, tan_fov_90]
    norm_num
  · simp [mapHome, MapManipulator.jumpToBookmark, MapManipulator.new, Manipulator.new,
      mapProps, zeroProps, Vec4.xyz, cross, normalize, length, dot, Vec3.add_def,
      Vec3.mul_def, Vec3.smul_def]

/-- The state `mapZoomed`: the zoom moved eye and target down by one unit, so the eye is at
`(0,0,4)` and the target, at `(0,0,-1)`, is below the ground plane. -/
theorem mapZoomed_state :
    (mapZoomed : MapManipulator ℝ).mEye = ⟨0, 0, 4⟩ ∧
    (mapZoomed : MapManipulator ℝ).mTarget = ⟨0, 0, -1⟩ ∧
    (mapZoomed : MapManipulator ℝ).mProps = mapProps := by
  obtain ⟨he, ht, hp⟩ := mapHome_state
  have hray : (mapHome : MapManipulator ℝ).toManipulator.raycast 0 0 ⟨0, 0, 0⟩ 0
      = (true, ⟨0, 0, 0⟩) := by
    simp [Manipulator.raycast, pixelDir, Camutils.raycastPlane, he, ht, hp, mapProps, zeroProps,
      cross, normalize, length, dot, Vec3.add_def, Vec3.sub_def, Vec3.mul_def, Vec3.div_def]
    norm_num
  have hz : (mapZoomed : MapManipulator ℝ)
      = moveWithConstraints mapHome ⟨0, 0, 4⟩ ⟨0, 0, -1⟩ := by
    simp [mapZoomed, MapManipulator.zoom, hray, he, ht, hp, mapProps, zeroProps, length, dot,
      Vec3.add_def, Vec3.sub_def, Vec3.mul_def, sqrt_25]
    norm_num
  rw [hz]
  exact ⟨rfl, rfl, rfl⟩

/-- The gaze of an eye placed straight above the target along a unit normal is the
opposite of the normal. -/
theorem normalize_down (T n : Vec3 ℝ) (s : ℝ) (hn : dot n n = 1) (hs : 0 < s) :
    normalize (T - (T + s * n)) = n * (-1 : ℝ) := by
  have e : T - (T + s * n) = n * (-1 : ℝ) * s := by
    simp only [Vec3.add_def, Vec3.sub_def, Vec3.mul_def, Vec3.smul_def]
    ext <;> simp only <;> ring
  have hd : dot (n * (-1 : ℝ)) (n * (-1 : ℝ)) = 1 := by
    simp only [dot, Vec3.mul_def] at hn ⊢
    linear_combination hn
  have hl : length (n * (-1 : ℝ) * s) = s := by
    rw [length_mul _ hs.le, length_of_dot_eq_one hd, one_mul]
  rw [normalize, e, hl]
  simp only [Vec3.mul_def]
  ext <;> simp only <;> field_simp

/-- Decomposition of a vector `w` orthogonal to `n` in the frame `(a × n, a)` of the
plane, for orthonormal `a`, `n`. -/
theorem frame_decomp (a n w : Vec3 ℝ) (ha : dot a a = 1) (hn : dot n n = 1)
    (han : dot a n = 0) (hw : dot n w = 0) :
    (cross a n) * dot (cross a n) w + a * dot a w = w := by
  simp only [dot, cross, Vec3.mul_def, Vec3.add_def] at ha hn han hw ⊢
  ext
  · simp only
    linear_combination
      w.x * ((n.x * n.x + n.y * n.y + n.z * n.z) * ha + hn
          - (a.x * n.x + a.y * n.y + a.z * n.z) * han)
        - a.x * (w.x * a.x + w.y * a.y + w.z * a.z) * hn
        + a.x * (n.x * w.x + n.y * w.y + n.z * w.z) * han
        - n.x * (a.x * a.x + a.y * a.y + a.z * a.z) * hw
        + n.x * (w.x * a.x + w.y * a.y + w.z * a.z) * han
  · simp only
    linear_combination
      w.y * ((n.x * n.x + n.y * n.y + n.z * n.z) * ha + hn
          - (a.x * n.x + a.y * n.y + a.z * n.z) * han)
        - a.y * (w.x * a.x + w.y * a.y + w.z * a.z) * hn
        + a.y * (n.x * w.x + n.y * w.y + n.z * w.z) * han
        - n.y * (a.x * a.x + a.y * a.y + a.z * a.z) * hw
        + n.y * (w.x * a.x + w.y * a.y + w.z * a.z) * han
  · simp only
    linear_combination
      w.z * ((n.x * n.x + n.y * n.y + n.z * n.z) * ha + hn
          - (a.x * n.x + a.y * n.y + a.z * n.z) * han)
        - a.z * (w.x * a.x + w.y * a.y + w.z * a.z) * hn
        + a.z * (n.x * w.x + n.y * w.y + n.z * w.z) * han
        - n.z * (a.x * a.x + a.y * a.y + a.z * a.z) * hw
        + n.z * (w.x * a.x + w.y * a.y + w.z * a.z) * han

theorem normalize_of_unit {v : Vec3 ℝ} (h : dot v v = 1) : normalize v = v := by
  rw [normalize, length_of_dot_eq_one h]
  simp only [Vec3.mul_def]
  ext <;> simp

theorem dot_cross_self_of_orthonormal (a n : Vec3 ℝ) (ha : dot a a = 1) (hn : dot n n = 1)
    (han : dot a n = 0) : dot (cross a n) (cross a n) = 1 := by
  simp only [dot, cross] at ha hn han ⊢
  linear_combination (n.x * n.x + n.y * n.y + n.z * n.z) * ha + hn
    - (a.x * n.x + a.y * n.y + a.z * n.z) * han

theorem cross_cross_of_orthonormal (a n : Vec3 ℝ) (hn : dot n n = 1) (han : dot a n = 0) :
    cross n (cross a n) = a := by
  simp only [dot, cross] at hn han ⊢
  ext
  · simp only
    linear_combination a.x * hn - n.x * han
  · simp only
    linear_combination a.y * hn - n.y * han
  · simp only
    linear_combination a.z * hn - n.z * han

/-- The ground-plane intersector along the downward normal from an eye at height `s` above
a point `T` of the plane: it succeeds with parameter `s`. -/
theorem raycastPlane_down (props : Properties ℝ) (T : Vec3 ℝ) (s t0 : ℝ)
    (hn : dot props.groundPlane.xyz props.groundPlane.xyz = 1)
    (hT : dot props.groundPlane.xyz T = props.groundPlane.w) (hs : 0 < s) :
    Camutils.raycastPlane props (T + s * props.groundPlane.xyz)
      (props.groundPlane.xyz * (-1 : ℝ)) t0 = (true, s) := by
  have hden : -dot (⟨props.groundPlane.x, props.groundPlane.y, props.groundPlane.z⟩ : Vec3 ℝ)
      (props.groundPlane.xyz * (-1 : ℝ)) = 1 := by
    simp only [dot, Vec4.xyz, Vec3.mul_def] at hn ⊢
    linear_combination hn
  have ht : dot ((⟨props.groundPlane.x, props.groundPlane.y, props.groundPlane.z⟩ : Vec3 ℝ)
      * props.groundPlane.w - (T + s * props.groundPlane.xyz))
      ⟨props.groundPlane.x, props.groundPlane.y, props.groundPlane.z⟩ / -1 = s := by
    simp only [dot, Vec4.xyz, Vec3.mul_def, Vec3.smul_def, Vec3.add_def, Vec3.sub_def] at hn hT ⊢
    rw [div_neg, div_one]
    linear_combination (s - props.groundPlane.w) * hn + hT
  have h1 : (1 : ℝ) > 1 / 1000000 := by norm_num
  simp only [Camutils.raycastPlane, hden, ht, h1, if_true, ge_iff_le, hs.le, decide_True]

/-- Claim C2 as stated fails: the reachable state `mapZoomed` (jump to a bookmark, then one
zoom at the centre pixel) has eye `(0,0,4)` and target `(0,0,-1)`, the plane intersector
succeeds along its gaze, and `jumpToBookmark (getCurrentBookmark ())` moves the target to
`(0,0,0)`. -/
theorem map_roundtrip_target_counterexample :
    (mapZoomed : MapManipulator ℝ).mTarget = ⟨0, 0, -1⟩ ∧
    (MapManipulator.raycastPlane (mapZoomed : MapManipulator ℝ) (mapZoomed : MapManipulator ℝ).mEye
      (normalize ((mapZoomed : MapManipulator ℝ).mTarget - (mapZoomed : MapManipulator ℝ).mEye))
      0).1 = true ∧
    (roundTrip (mapZoomed : MapManipulator ℝ) 0).mTarget = ⟨0, 0, 0⟩ ∧
    (roundTrip (mapZoomed : MapManipulator ℝ) 0).mTarget
      ≠ (mapZoomed : MapManipulator ℝ).mTarget := by
  obtain ⟨he, ht, hp⟩ := mapZoomed_state
  have hs : Real.sqrt (5 * 5) = 5 := Real.sqrt_mul_self (by norm_num)
  have hr : (roundTrip (mapZoomed : MapManipulator ℝ) 0).mTarget = ⟨0, 0, 0⟩ := by
    simp [roundTrip, MapManipulator.jumpToBookmark, MapManipulator.getCurrentBookmark,
      MapManipulator.raycastPlane, Camutils.raycastPlane, he, ht, hp, mapProps, zeroProps,
      Vec4.xyz, cross, normalize, length, dot, Vec3.add_def, Vec3.sub_def, Vec3.mul_def, hs]
  refine ⟨ht, ?_, hr, ?_⟩
  · simp [MapManipulator.raycastPlane, Camutils.raycastPlane, he, ht, hp, mapProps, zeroProps,
      normalize, length, dot, Vec3.add_def, Vec3.sub_def, Vec3.mul_def, hs]
    norm_num [sqrt_25]
  · rw [hr, ht]
    intro h
    have hz := congrArg Vec3.z h
    norm_num at hz

/-- Claim C2, amended: for every map state in which the ground-plane normal is a unit
vector, the configured up vector is a unit vector orthogonal to it, `tan (fov / 2)` is not
zero, the home target and the target lie on the ground plane and the eye lies straight
above the target along the normal (`eye = target + s * normal` with `s > 0`), the plane
intersector succeeds along the gaze and `jumpToBookmark (getCurrentBookmark ())` leaves both
eye and target equal to the values they had before the call. -/
theorem map_roundtrip_above_target (m : MapManipulator ℝ) (s t0 : ℝ)
    (hn : dot m.mProps.groundPlane.xyz m.mProps.groundPlane.xyz = 1)
    (hup : dot m.mProps.homeUpVector m.mProps.homeUpVector = 1)
    (horth : dot m.mProps.homeUpVector m.mProps.groundPlane.xyz = 0)
    (htan : Real.tan (m.mProps.fovDegrees * Real.pi / 180 / 2) ≠ 0)
    (hhome : dot m.mProps.groundPlane.xyz m.mProps.homeTarget = m.mProps.groundPlane.w)
    (htgt : dot m.mProps.groundPlane.xyz m.mTarget = m.mProps.groundPlane.w)
    (hs : 0 < s) (heye : m.mEye = m.mTarget + s * m.mProps.groundPlane.xyz) :
    (MapManipulator.raycastPlane m m.mEye (normalize (m.mTarget - m.mEye)) t0).1 = true ∧
    (roundTrip m t0).mEye = m.mEye ∧
    (roundTrip m t0).mTarget = m.mTarget := by
  have hdir : normalize (m.mTarget - m.mEye) = m.mProps.groundPlane.xyz * (-1 : ℝ) := by
    rw [heye]
    exact normalize_down _ _ _ hn hs
  have hray : MapManipulator.raycastPlane m m.mEye (m.mProps.groundPlane.xyz * (-1 : ℝ)) t0
      = (true, s) := by
    rw [heye]
    exact raycastPlane_down m.mProps m.mTarget s t0 hn htgt hs
  have hfocus : m.mEye + m.mProps.groundPlane.xyz * (-1 : ℝ) * s = m.mTarget := by
    rw [heye]
    simp only [Vec3.add_def, Vec3.mul_def, Vec3.smul_def]
    ext <;> simp only <;> ring
  have hu := dot_cross_self_of_orthonormal _ _ hup hn horth
  have hv := cross_cross_of_orthonormal _ _ hn horth
  have hoff : dot m.mProps.groundPlane.xyz (m.mTarget - m.mProps.homeTarget) = 0 := by
    simp only [dot, Vec3.sub_def] at hhome htgt ⊢
    linear_combination htgt - hhome
  have hframe := frame_decomp _ _ _ hup hn horth hoff
  have htarget : (roundTrip m t0).mTarget = m.mTarget := by
    simp only [roundTrip, MapManipulator.jumpToBookmark, MapManipulator.getCurrentBookmark,
      hray, hdir, hfocus, hv, normalize_of_unit hu, normalize_of_unit hup]
    have e : ∀ h p q : Vec3 ℝ, p + q = m.mTarget - h → h + p + q = m.mTarget := by
      intro h p q hpq
      simp only [Vec3.add_def, Vec3.sub_def] at hpq ⊢
      have hx := congrArg Vec3.x hpq
      have hy := congrArg Vec3.y hpq
      have hz := congrArg Vec3.z hpq
      simp only at hx hy hz
      ext
      · simp only
        linarith
      · simp only
        linarith
      · simp only
        linarith
    exact e _ _ _ hframe
  refine ⟨by rw [hdir, hray], ?_, htarget⟩
  have heye2 : (roundTrip m t0).mEye = (roundTrip m t0).mTarget
      + (s * Real.tan (m.mProps.fovDegrees * Real.pi / 180 / 2) * 2 / 2
        / Real.tan (m.mProps.fovDegrees * Real.pi / 180 / 2)) * m.mProps.groundPlane.xyz := by
    simp only [roundTrip, MapManipulator.jumpToBookmark, MapManipulator.getCurrentBookmark,
      hdir, hray, tan_real, pi_real]
  rw [heye2, htarget, heye]
  have hsc : s * Real.tan (m.mProps.fovDegrees * Real.pi / 180 / 2) * 2 / 2
      / Real.tan (m.mProps.fovDegrees * Real.pi / 180 / 2) = s := by
    rw [mul_div_cancel_right₀ _ (two_ne_zero), mul_div_cancel_right₀ _ htan]
  rw [hsc]

/-- Witness for C2 (amended): the state `mapHome` (eye `(0,0,5)` straight above the target
`(0,0,0)` on the plane `z = 0`, field of view `90` degrees) satisfies the hypotheses with
`s = 5`, and the round trip reproduces its eye and target. -/
theorem map_roundtrip_above_target_witness :
    (roundTrip (mapHome : MapManipulator ℝ) 0).mEye = ⟨0, 0, 5⟩ ∧
    (roundTrip (mapHome : MapManipulator ℝ) 0).mTarget = ⟨0, 0, 0⟩ := by
  obtain ⟨he, ht, hp⟩ := mapHome_state
  have h := map_roundtrip_above_target (mapHome : MapManipulator ℝ) 5 0
    (by simp [hp, mapProps, zeroProps, Vec4.xyz, dot])
    (by simp [hp, mapProps, zeroProps, dot])
    (by simp [hp, mapProps, zeroProps, Vec4.xyz, dot])
    (by
      have e : (mapHome : MapManipulator ℝ).mProps.fovDegrees = 90 := by
        rw [hp]
        rfl
      rw [e, tan_fov_90]
      norm_num)
    (by simp [hp, mapProps, zeroProps, Vec4.xyz, dot])
    (by simp [hp, ht, mapProps, zeroProps, Vec4.xyz, dot])
    (by norm_num)
    (by
      rw [he, ht]
      simp [hp, mapProps, zeroProps, Vec4.xyz, Vec3.add_def, Vec3.smul_def])
  exact ⟨h.2.1.trans he, h.2.2.trans ht⟩

end MapRoundTrip

/-! ## Map mode: home bookmark -/

section MapHome

open MapManipulator

/-- Claim C11 as stated fails: with map extent `(512, 512)` and a horizontal field-of-view
axis the extent of `getHomeBookmark ()` is `256`, not the configured map width `512`. -/
theorem map_home_extent_counterexample :
    (mapExtentHome : MapManipulator ℝ).mProps.fovDirection = Fov.HORIZONTAL ∧
    (mapExtentHome : MapManipulator ℝ).mProps.mapExtent.x = 512 ∧
    (getHomeBookmark (mapExtentHome : MapManipulator ℝ)).extent = 256 ∧
    (getHomeBookmark (mapExtentHome : MapManipulator ℝ)).extent
      ≠ (mapExtentHome : MapManipulator ℝ).mProps.mapExtent.x := by
  have h : (getHomeBookmark (mapExtentHome : MapManipulator ℝ)).extent = 256 := by
    simp [getHomeBookmark, mapExtentHome, MapManipulator.new, Manipulator.new, zeroProps]
    norm_num
  refine ⟨rfl, rfl, h, ?_⟩
  rw [h]
  simp [mapExtentHome, MapManipulator.new, Manipulator.new, zeroProps]

/-- Claim C11, amended: for every configuration, `getHomeBookmark ()` in map mode returns
the center `(0, 0)` and an extent equal to half the configured map width
(`mapExtent.x / 2`) when the field-of-view axis is horizontal, and half the configured map
height (`mapExtent.y / 2`) otherwise. -/
theorem map_home_extent (m : MapManipulator ℝ) :
    (getHomeBookmark m).center = ⟨0, 0⟩ ∧
    (getHomeBookmark m).extent
      = if m.mProps.fovDirection = Fov.HORIZONTAL then m.mProps.mapExtent.x / 2
        else m.mProps.mapExtent.y / 2 := by
  refine ⟨rfl, ?_⟩
  simp only [getHomeBookmark]
  by_cases h : m.mProps.fovDirection = Fov.HORIZONTAL
  · simp [h]
  · simp [h]

end MapHome

/-! ## Configuration merge -/

section Merge

/-- A conditional between two configurations is the configuration of the fieldwise
conditionals. -/
theorem Properties.ite_mk (c : Prop) [Decidable c]
    (a0 b0 : Int × Int)
    (a1 b1 : ℝ)
    (a2 b2 : Vec3 ℝ)
    (a3 b3 : Vec3 ℝ)
    (a4 b4 : Vec4 ℝ)
    (a5 b5 : Option (RayCallback ℝ))
    (a6 b6 : Nat)
    (a7 b7 : Vec3 ℝ)
    (a8 b8 : Vec2 ℝ)
    (a9 b9 : Vec2 ℝ)
    (a10 b10 : Fov)
    (a11 b11 : ℝ)
    (a12 b12 : ℝ)
    (a13 b13 : Vec2 ℝ)
    (a14 b14 : ℝ) :
    (if c then Properties.mk a0 a1 a2 a3 a4 a5 a6 a7 a8 a9 a10 a11 a12 a13 a14
      else Properties.mk b0 b1 b2 b3 b4 b5 b6 b7 b8 b9 b10 b11 b12 b13 b14)
      = Properties.mk
        (if c then a0 else b0)
        (if c then a1 else b1)
        (if c then a2 else b2)
        (if c then a3 else b3)
        (if c then a4 else b4)
        (if c then a5 else b5)
        (if c then a6 else b6)
        (if c then a7 else b7)
        (if c then a8 else b8)
        (if c then a9 else b9)
        (if c then a10 else b10)
        (if c then a11 else b11)
        (if c then a12 else b12)
        (if c then a13 else b13)
        (if c then a14 else b14) := by
  split_ifs <;> rfl

/-- Claim C15: after `setProperties (p)` the stored configuration equals `p` except that
each of `zoomSpeed`, `homeUpVector`, `groundPlane`, `homeVector`, `orbitSpeed`,
`strafeSpeed`, `fovDegrees`, `farPlane`, `mapExtent`, when equal to its zero value in `p`,
is replaced by its default; every non-zero value of those fields and every other field
passes through unchanged, `getProperties` returns the merged value, and mode, eye and
target are not touched. -/
theorem setProperties_merge (m : Manipulator ℝ) (p : Properties ℝ) :
    (m.setProperties p).getProperties =
      { viewport := p.viewport
        zoomSpeed := if p.zoomSpeed = 0 then 1 / 100 else p.zoomSpeed
        homeTarget := p.homeTarget
        homeUpVector := if p.homeUpVector = ⟨0, 0, 0⟩ then ⟨0, 1, 0⟩ else p.homeUpVector
        groundPlane := if p.groundPlane = ⟨0, 0, 0, 0⟩ then ⟨0, 0, 1, 0⟩ else p.groundPlane
        raycastCallback := p.raycastCallback
        raycastUserdata := p.raycastUserdata
        homeVector := if p.homeVector = ⟨0, 0, 0⟩ then ⟨0, 0, 1⟩ else p.homeVector
        orbitSpeed := if p.orbitSpeed = ⟨0, 0⟩ then ⟨1 / 100, 1 / 100⟩ else p.orbitSpeed
        strafeSpeed := if p.strafeSpeed = ⟨0, 0⟩ then ⟨1 / 100, 1 / 100⟩ else p.strafeSpeed
        fovDirection := p.fovDirection
        fovDegrees := if p.fovDegrees = 0 then 33 else p.fovDegrees
        farPlane := if p.farPlane = 0 then 5000 else p.farPlane
        mapExtent := if p.mapExtent = ⟨0, 0⟩ then ⟨512, 512⟩ else p.mapExtent
        mapMinDistance := p.mapMinDistance } ∧
    (m.setProperties p).mProps = (m.setProperties p).getProperties ∧
    (m.setProperties p).mMode = m.mMode ∧
    (m.setProperties p).mEye = m.mEye ∧
    (m.setProperties p).mTarget = m.mTarget := by
  refine ⟨?_, rfl, rfl, rfl, rfl⟩
  cases p
  simp only [Manipulator.setProperties, Manipulator.getProperties, Vec2.splat, Vec3.splat,
    Vec4.splat, Properties.ite_mk, ite_self]

end Merge

/-! ## Orbit mode: grab state machine and strafing -/

section OrbitGrab

open OrbitManipulator

/-- Claim C19: `grabBegin (x, y, strafe)` enters `STRAFING` if `strafe` is true and
`GRABBING` (rotating) otherwise without changing eye, target, pivot or the flipped flag;
`grabEnd` returns to `INACTIVE`, changes nothing else of the view and is idempotent; and for
every pixel `grabUpdate` in the `INACTIVE` state is a no-op, in particular on a newly
constructed manipulator and directly after `grabEnd`. -/
theorem orbit_grab_state_machine (m : OrbitManipulator ℝ) (x y x1 y1 : Int) (strafe : Bool)
    (mode : Mode) (props : Properties ℝ) :
    (grabBegin m x y strafe).mGrabState
      = (if strafe then GrabState.STRAFING else GrabState.GRABBING) ∧
    (grabBegin m x y strafe).mEye = m.mEye ∧
    (grabBegin m x y strafe).mTarget = m.mTarget ∧
    (grabBegin m x y strafe).mPivot = m.mPivot ∧
    (grabBegin m x y strafe).mFlipped = m.mFlipped ∧
    (grabEnd m).mGrabState = GrabState.INACTIVE ∧
    (grabEnd m).mEye = m.mEye ∧
    (grabEnd m).mTarget = m.mTarget ∧
    (grabEnd m).mPivot = m.mPivot ∧
    (grabEnd m).mFlipped = m.mFlipped ∧
    grabEnd (grabEnd m) = grabEnd m ∧
    (m.mGrabState = GrabState.INACTIVE → grabUpdate m x1 y1 = m) ∧
    grabUpdate (OrbitManipulator.new mode props) x1 y1 = OrbitManipulator.new mode props ∧
    grabUpdate (grabEnd m) x1 y1 = grabEnd m := by
  have hin : ∀ s : OrbitManipulator ℝ, s.mGrabState = GrabState.INACTIVE →
      grabUpdate s x1 y1 = s := by
    intro s hs
    simp [grabUpdate, hs]
  exact ⟨rfl, rfl, rfl, rfl, rfl, rfl, rfl, rfl, rfl, rfl, rfl, hin m, hin _ rfl, hin _ rfl⟩

theorem add_sub_add_same (a b v : Vec3 ℝ) : (a + v) - (b + v) = a - b := by
  simp only [Vec3.add_def, Vec3.sub_def]
  ext <;> simp

end OrbitGrab

/-! ## Raycasting -/

section Raycast

/-- The flag of the ground-plane intersector, and on a hit its parameter, do not depend on
the previous content of the out-parameter. -/
theorem raycastPlane_indep (props : Properties ℝ) (o d : Vec3 ℝ) (t t1 : ℝ) :
    (raycastPlane props o d t).1 = (raycastPlane props o d t1).1 ∧
    ((raycastPlane props o d t).1 = true →
      (raycastPlane props o d t).2 = (raycastPlane props o d t1).2) := by
  simp only [raycastPlane]
  split_ifs <;> simp

/-- A failed `raycast` leaves the output point untouched. -/
theorem raycast_fail_result (m : Manipulator ℝ) (x y : Int) (result : Vec3 ℝ) (t0 : ℝ)
    (h : (m.raycast x y result t0).1 = false) : (m.raycast x y result t0).2 = result := by
  simp only [Manipulator.raycast] at h ⊢
  split at h <;> split_ifs at h ⊢ <;> simp_all

/-- Claim C16: with `(eye, dir)` the ray through pixel `(x, y)`: if a user callback is
configured and reports a hit with parameter `t`, `raycast` succeeds with `eye + dir * t`;
if it is configured and reports a miss, `raycast` returns exactly what the ground-plane
intersector gives for the same ray (the same as without any callback); if no callback is
configured the ground-plane intersector alone decides; `raycast` fails exactly when every
test consulted misses, and on failure the output point is left untouched. -/
theorem raycast_callback_fallback (m : Manipulator ℝ) (x y : Int) (result : Vec3 ℝ) (t0 : ℝ) :
    (∀ cb : RayCallback ℝ, m.mProps.raycastCallback = some cb →
      (cb m.mEye (normalize (pixelDir m x y)) t0 m.mProps.raycastUserdata).1 = true →
      m.raycast x y result t0
        = (true, m.mEye + normalize (pixelDir m x y)
            * (cb m.mEye (normalize (pixelDir m x y)) t0 m.mProps.raycastUserdata).2)) ∧
    (∀ cb : RayCallback ℝ, m.mProps.raycastCallback = some cb →
      (cb m.mEye (normalize (pixelDir m x y)) t0 m.mProps.raycastUserdata).1 = false →
      m.raycast x y result t0
        = (if (raycastPlane m.mProps m.mEye (normalize (pixelDir m x y)) t0).1 = true
            then (true, m.mEye + normalize (pixelDir m x y)
              * (raycastPlane m.mProps m.mEye (normalize (pixelDir m x y)) t0).2)
            else (false, result))) ∧
    (m.mProps.raycastCallback = none →
      m.raycast x y result t0
        = (if (raycastPlane m.mProps m.mEye (normalize (pixelDir m x y)) t0).1 = true
            then (true, m.mEye + normalize (pixelDir m x y)
              * (raycastPlane m.mProps m.mEye (normalize (pixelDir m x y)) t0).2)
            else (false, result))) ∧
    ((m.raycast x y result t0).1 = false ↔
      (raycastPlane m.mProps m.mEye (normalize (pixelDir m x y)) t0).1 = false ∧
      ∀ cb : RayCallback ℝ, m.mProps.raycastCallback = some cb →
        (cb m.mEye (normalize (pixelDir m x y)) t0 m.mProps.raycastUserdata).1 = false) ∧
    ((m.raycast x y result t0).1 = false → (m.raycast x y result t0).2 = result) := by
  have hnone : m.mProps.raycastCallback = none →
      m.raycast x y result t0
        = (if (raycastPlane m.mProps m.mEye (normalize (pixelDir m x y)) t0).1 = true
            then (true, m.mEye + normalize (pixelDir m x y)
              * (raycastPlane m.mProps m.mEye (normalize (pixelDir m x y)) t0).2)
            else (false, result)) := by
    intro hcb
    simp only [Manipulator.raycast, hcb]
    split_ifs <;> simp_all
  have hhit : ∀ cb : RayCallback ℝ, m.mProps.raycastCallback = some cb →
      (cb m.mEye (normalize (pixelDir m x y)) t0 m.mProps.raycastUserdata).1 = true →
      m.raycast x y result t0
        = (true, m.mEye + normalize (pixelDir m x y)
            * (cb m.mEye (normalize (pixelDir m x y)) t0 m.mProps.raycastUserdata).2) := by
    intro cb hcb hit
    simp only [Manipulator.raycast, hcb, hit]
    simp
  have hmiss : ∀ cb : RayCallback ℝ, m.mProps.raycastCallback = some cb →
      (cb m.mEye (normalize (pixelDir m x y)) t0 m.mProps.raycastUserdata).1 = false →
      m.raycast x y result t0
        = (if (raycastPlane m.mProps m.mEye (normalize (pixelDir m x y)) t0).1 = true
            then (true, m.mEye + normalize (pixelDir m x y)
              * (raycastPlane m.mProps m.mEye (normalize (pixelDir m x y)) t0).2)
            else (false, result)) := by
    intro cb hcb miss
    obtain ⟨h1, h2⟩ := raycastPlane_indep m.mProps m.mEye (normalize (pixelDir m x y))
      (cb m.mEye (normalize (pixelDir m x y)) t0 m.mProps.raycastUserdata).2 t0
    simp only [Manipulator.raycast, hcb, miss]
    by_cases hp : (raycastPlane m.mProps m.mEye (normalize (pixelDir m x y))
        (cb m.mEye (normalize (pixelDir m x y)) t0 m.mProps.raycastUserdata).2).1 = true
    · have hp0 := h1 ▸ hp
      simp [hp, hp0, h2 hp]
    · have hp0 : ¬ (raycastPlane m.mProps m.mEye (normalize (pixelDir m x y)) t0).1 = true := by
        rw [← h1]
        exact hp
      simp [hp, hp0]
  refine ⟨hhit, hmiss, hnone, ?_, raycast_fail_result m x y result t0⟩
  cases hcb : m.mProps.raycastCallback with
  | none =>
    rw [hnone hcb]
    by_cases hp : (raycastPlane m.mProps m.mEye (normalize (pixelDir m x y)) t0).1 = true
    · simp [hp]
    · simp [hp]
  | some cb =>
    by_cases hit : (cb m.mEye (normalize (pixelDir m x y)) t0 m.mProps.raycastUserdata).1 = true
    · rw [hhit cb hcb hit]
      simp [hit]
    · have miss : (cb m.mEye (normalize (pixelDir m x y)) t0 m.mProps.raycastUserdata).1
          = false := by simpa using hit
      rw [hmiss cb hcb miss]
      by_cases hp : (raycastPlane m.mProps m.mEye (normalize (pixelDir m x y)) t0).1 = true
      · simp [hp]
      · simp [hp, miss]

/-- The pixel direction of a view whose gaze is `(0, 0, -1)` has `z`-component `-1`. -/
theorem pixelDir_down_z (m : Manipulator ℝ) (x y : Int)
    (hgaze : normalize (m.mTarget - m.mEye) = ⟨0, 0, -1⟩) : (pixelDir m x y).z = -1 := by
  simp only [pixelDir, hgaze]
  split_ifs <;> simp [cross, Vec3.add_def, Vec3.mul_def, Vec3.div_def]

/-- The `raycast` of a view above the plane `z = 0` whose gaze is `(0, 0, -1)`, without user
callback: it succeeds exactly when the normalised pixel direction passes the facing test,
and then returns `eye + pixelDir * eye.z`. -/
theorem raycast_looking_down (m : Manipulator ℝ) (x y : Int) (result : Vec3 ℝ) (t0 : ℝ)
    (hplane : m.mProps.groundPlane = ⟨0, 0, 1, 0⟩) (hcb : m.mProps.raycastCallback = none)
    (hgaze : normalize (m.mTarget - m.mEye) = ⟨0, 0, -1⟩) (hz : 0 < m.mEye.z) :
    0 < length (pixelDir m x y) ∧
    m.raycast x y result t0
      = (if 1 / length (pixelDir m x y) > 1 / 1000000
          then (true, m.mEye + pixelDir m x y * m.mEye.z) else (false, result)) := by
  have hdz := pixelDir_down_z m x y hgaze
  have hd0 : pixelDir m x y ≠ ⟨0, 0, 0⟩ := by
    intro h
    have h3 := congrArg Vec3.z h
    rw [hdz] at h3
    norm_num at h3
  have hL := length_pos hd0
  refine ⟨hL, ?_⟩
  have hden : -dot (⟨m.mProps.groundPlane.x, m.mProps.groundPlane.y, m.mProps.groundPlane.z⟩
      : Vec3 ℝ) (normalize (pixelDir m x y)) = 1 / length (pixelDir m x y) := by
    rw [hplane]
    simp only [dot, normalize, Vec3.mul_def, hdz]
    ring
  have ht : dot ((⟨m.mProps.groundPlane.x, m.mProps.groundPlane.y, m.mProps.groundPlane.z⟩
      : Vec3 ℝ) * m.mProps.groundPlane.w - m.mEye)
      ⟨m.mProps.groundPlane.x, m.mProps.groundPlane.y, m.mProps.groundPlane.z⟩
      / -(1 / length (pixelDir m x y)) = m.mEye.z * length (pixelDir m x y) := by
    rw [hplane]
    simp only [dot, Vec3.mul_def, Vec3.sub_def]
    field_simp
  have hpt : m.mEye + normalize (pixelDir m x y) * (m.mEye.z * length (pixelDir m x y))
      = m.mEye + pixelDir m x y * m.mEye.z := by
    simp only [normalize, Vec3.add_def, Vec3.mul_def]
    ext <;> simp only <;> field_simp <;> ring
  have hnn : 0 ≤ m.mEye.z * length (pixelDir m x y) := (mul_pos hz hL).le
  simp only [Manipulator.raycast, hcb, raycastPlane, hden, ht]
  by_cases hc : 1 / length (pixelDir m x y) > 1 / 1000000
  · simp only [hc, if_true, ge_iff_le, hnn, decide_True, Bool.not_true, hpt]
    simp
  · simp only [hc, if_false]
    simp

theorem normalize_sub_down (a b h : ℝ) (hh : 0 < h) :
    normalize ((⟨a, b, 0⟩ : Vec3 ℝ) - ⟨a, b, h⟩) = ⟨0, 0, -1⟩ := by
  have e : (⟨a, b, h⟩ : Vec3 ℝ) = ⟨a, b, 0⟩ + h * (⟨0, 0, 1⟩ : Vec3 ℝ) := by
    simp [Vec3.add_def, Vec3.smul_def]
  rw [e, normalize_down _ _ _ (by simp [dot]) hh]
  simp [Vec3.mul_def]

theorem steepView_state :
    (steepView : Manipulator ℝ).mEye = ⟨0, 0, 5⟩ ∧
    (steepView : Manipulator ℝ).mTarget = ⟨0, 0, 0⟩ ∧
    (steepView : Manipulator ℝ).mProps.groundPlane = ⟨0, 0, 1, 0⟩ ∧
    (steepView : Manipulator ℝ).mProps.raycastCallback = none ∧
    (steepView : Manipulator ℝ).mProps.viewport = (2, 2) ∧
    (steepView : Manipulator ℝ).mProps.homeUpVector = ⟨0, 2000000, 0⟩ ∧
    (steepView : Manipulator ℝ).mProps.fovDirection = Fov.VERTICAL ∧
    (steepView : Manipulator ℝ).mProps.fovDegrees = 90 := by
  refine ⟨?_, ?_, rfl, rfl, rfl, rfl, rfl, rfl⟩
  · simp [steepView, MapManipulator.jumpToBookmark, MapManipulator.new, Manipulator.new,
      zeroProps, Vec4.xyz, Vec3.add_def, Vec3.mul_def, Vec3.smul_def, tan_fov_90]
    norm_num
  · simp [steepView, MapManipulator.jumpToBookmark, MapManipulator.new, Manipulator.new,
      zeroProps, Vec3.add_def, Vec3.mul_def]

theorem steepView_pixelDir :
    pixelDir (steepView : Manipulator ℝ) 1 1 = ⟨1000000, 1000000, -1⟩ ∧
    pixelDir (steepView : Manipulator ℝ) 0 0 = ⟨-1000000, -1000000, -1⟩ := by
  obtain ⟨he, ht, _, _, hv, hu, hf, hd⟩ := steepView_state
  have hg : normalize ((steepView : Manipulator ℝ).mTarget - (steepView : Manipulator ℝ).mEye)
      = ⟨0, 0, -1⟩ := by
    rw [he, ht]
    exact normalize_sub_down 0 0 5 (by norm_num)
  constructor
  · simp only [pixelDir, hg, hv, hu, hf, hd, pi_real, tan_real, tan_fov_90, if_true, cross,
      Vec3.add_def, Vec3.mul_def]
    ext <;> norm_num
  · simp only [pixelDir, hg, hv, hu, hf, hd, pi_real, tan_real, tan_fov_90, if_true, cross,
      Vec3.add_def, Vec3.mul_def]
    ext <;> norm_num

/-- The centre pixel `(a, b)` of an odd viewport `(2a+1, 2b+1)` in a view above the plane
`z = 0` whose gaze is `(0, 0, -1)`: the pixel direction is the gaze and the raycast returns
the point straight below the eye. -/
theorem raycast_down_centre (m : Manipulator ℝ) (a b : Int) (result : Vec3 ℝ) (t0 : ℝ)
    (hplane : m.mProps.groundPlane = ⟨0, 0, 1, 0⟩) (hcb : m.mProps.raycastCallback = none)
    (hz : 0 < m.mEye.z) (hgaze : normalize (m.mTarget - m.mEye) = ⟨0, 0, -1⟩)
    (hvp : m.mProps.viewport = (2 * a + 1, 2 * b + 1)) :
    2 * (1 / 2 + (a : ℝ)) / ((2 * a + 1 : Int) : ℝ) - 1 = 0 ∧
    2 * (1 / 2 + (b : ℝ)) / ((2 * b + 1 : Int) : ℝ) - 1 = 0 ∧
    pixelDir m a b = ⟨0, 0, -1⟩ ∧
    m.raycast a b result t0 = (true, ⟨m.mEye.x, m.mEye.y, 0⟩) := by
  have hne : ∀ c : Int, ((2 * c + 1 : Int) : ℝ) ≠ 0 := by
    intro c
    have hc : (2 * c + 1 : Int) ≠ 0 := by omega
    exact_mod_cast hc
  have hndc : ∀ c : Int, 2 * (1 / 2 + (c : ℝ)) / ((2 * c + 1 : Int) : ℝ) - 1 = 0 := by
    intro c
    have h1 : 2 * (c : ℝ) + 1 ≠ 0 := by
      have h2 := hne c
      push_cast at h2
      exact h2
    push_cast
    field_simp
    ring
  have hdir : pixelDir m a b = ⟨0, 0, -1⟩ := by
    simp only [pixelDir, hgaze, hvp, hndc a, hndc b]
    split_ifs <;> simp [Vec3.add_def, Vec3.mul_def, Vec3.div_def]
  refine ⟨hndc a, hndc b, hdir, ?_⟩
  rw [(raycast_looking_down m a b result t0 hplane hcb hgaze hz).2, hdir]
  have hl : length (⟨0, 0, -1⟩ : Vec3 ℝ) = 1 := length_of_dot_eq_one (by simp [dot])
  rw [hl, if_pos (by norm_num)]
  simp [Vec3.add_def, Vec3.mul_def]

theorem length_steep (a b : ℝ) (h : 1000000 * 1000000 ≤ a * a + b * b) :
    ¬ 1 / length (⟨a, b, -1⟩ : Vec3 ℝ) > 1 / 1000000 := by
  have h1 : (1000000 : ℝ) ≤ length (⟨a, b, -1⟩ : Vec3 ℝ) := by
    simp only [length, dot, sqrt_real]
    rw [← Real.sqrt_mul_self (by norm_num : (0 : ℝ) ≤ 1000000)]
    apply Real.sqrt_le_sqrt
    linarith
  have h2 : 1 / length (⟨a, b, -1⟩ : Vec3 ℝ) ≤ 1 / 1000000 :=
    one_div_le_one_div_of_le (by norm_num) h1
  exact not_lt.mpr h2

/-- Claim C17 as stated fails: the view `steepView` has ground plane `(0,0,1,0)`, no user
callback, its eye at height `5` above the plane, gaze `(0,0,-1)` and an up vector that is
not collinear with the gaze, yet `raycast` fails at the pixels `(1, 1)` and `(0, 0)` around
the centre of its `2 x 2` viewport: the pixel directions `(±1000000, ±1000000, -1)` do not
pass the facing test of the plane intersector. -/
theorem raycast_centre_pixel_counterexample :
    (steepView : Manipulator ℝ).mProps.groundPlane = ⟨0, 0, 1, 0⟩ ∧
    (steepView : Manipulator ℝ).mProps.raycastCallback = none ∧
    (steepView : Manipulator ℝ).mProps.viewport = (2, 2) ∧
    0 < (steepView : Manipulator ℝ).mEye.z ∧
    normalize ((steepView : Manipulator ℝ).mTarget - (steepView : Manipulator ℝ).mEye)
      = ⟨0, 0, -1⟩ ∧
    cross (normalize ((steepView : Manipulator ℝ).mTarget - (steepView : Manipulator ℝ).mEye))
      (steepView : Manipulator ℝ).mProps.homeUpVector ≠ ⟨0, 0, 0⟩ ∧
    ((steepView : Manipulator ℝ).raycast 1 1 ⟨0, 0, 0⟩ 0).1 = false ∧
    ((steepView : Manipulator ℝ).raycast 0 0 ⟨0, 0, 0⟩ 0).1 = false := by
  obtain ⟨he, ht, hpl, hcb, hv, hu, hf, hd⟩ := steepView_state
  obtain ⟨hd1, hd0⟩ := steepView_pixelDir
  have hg : normalize ((steepView : Manipulator ℝ).mTarget - (steepView : Manipulator ℝ).mEye)
      = ⟨0, 0, -1⟩ := by
    rw [he, ht]
    exact normalize_sub_down 0 0 5 (by norm_num)
  have hz : 0 < (steepView : Manipulator ℝ).mEye.z := by
    rw [he]
    norm_num
  refine ⟨hpl, hcb, hv, hz, hg, ?_, ?_, ?_⟩
  · rw [hg, hu]
    intro h
    have hx := congrArg Vec3.x h
    simp [cross] at hx
  · rw [(raycast_looking_down _ 1 1 ⟨0, 0, 0⟩ 0 hpl hcb hg hz).2, hd1,
      if_neg (length_steep _ _ (by norm_num))]
  · rw [(raycast_looking_down _ 0 0 ⟨0, 0, 0⟩ 0 hpl hcb hg hz).2, hd0,
      if_neg (length_steep _ _ (by norm_num))]

/-- Claim C17, amended: with ground plane `(0,0,1,0)`, no user callback, an eye with
`eye.z > 0` and gaze `(0,0,-1)`, `raycast` at a pixel `(x, y)` succeeds exactly when the
normalised pixel direction passes the facing test (`1 / |pixelDir| > 1e-6`), and it then
returns `eye + pixelDir * eye.z`, a point with `z = 0` whose offset from
`(eye.x, eye.y, 0)` is `eye.z` times the horizontal part of the pixel direction; when the
viewport width and height are odd, `(2a+1, 2b+1)`, and the pixel is the centre `(a, b)`, the
normalized device coordinates are both `0`, the pixel direction is the gaze, and `raycast`
succeeds with exactly `(eye.x, eye.y, 0)`. -/
theorem raycast_straight_down (m : Manipulator ℝ) (x y : Int) (result : Vec3 ℝ) (t0 : ℝ)
    (hplane : m.mProps.groundPlane = ⟨0, 0, 1, 0⟩) (hcb : m.mProps.raycastCallback = none)
    (hz : 0 < m.mEye.z) (hgaze : normalize (m.mTarget - m.mEye) = ⟨0, 0, -1⟩) :
    ((m.raycast x y result t0).1 = true ↔ 1 / length (pixelDir m x y) > 1 / 1000000) ∧
    ((m.raycast x y result t0).1 = true →
      (m.raycast x y result t0).2 = m.mEye + pixelDir m x y * m.mEye.z ∧
      (m.raycast x y result t0).2.z = 0) ∧
    (∀ a b : Int, m.mProps.viewport = (2 * a + 1, 2 * b + 1) →
      2 * (1 / 2 + (a : ℝ)) / ((2 * a + 1 : Int) : ℝ) - 1 = 0 ∧
      2 * (1 / 2 + (b : ℝ)) / ((2 * b + 1 : Int) : ℝ) - 1 = 0 ∧
      pixelDir m a b = ⟨0, 0, -1⟩ ∧
      m.raycast a b result t0 = (true, ⟨m.mEye.x, m.mEye.y, 0⟩)) := by
  have hray := (raycast_looking_down m x y result t0 hplane hcb hgaze hz).2
  have hdz := pixelDir_down_z m x y hgaze
  refine ⟨?_, ?_, ?_⟩
  · rw [hray]
    by_cases hc : 1 / length (pixelDir m x y) > 1 / 1000000
    · rw [if_pos hc]
      exact ⟨fun _ => hc, fun _ => rfl⟩
    · rw [if_neg hc]
      exact ⟨fun h => Bool.noConfusion h, fun h => absurd h hc⟩
  · intro hit
    have hc : 1 / length (pixelDir m x y) > 1 / 1000000 := by
      by_contra hc
      rw [hray, if_neg hc] at hit
      simp at hit
    rw [hray, if_pos hc]
    refine ⟨rfl, ?_⟩
    simp only [Vec3.add_def, Vec3.mul_def, hdz]
    ring
  · intro a b hvp
    exact raycast_down_centre m a b result t0 hplane hcb hz hgaze hvp

/-- Witness for C17 (amended): the state `mapHome` looks straight down from `(0,0,5)` with
the odd viewport `(1, 1)`; the raycast at its centre pixel `(0, 0)` succeeds with the point
`(0, 0, 0)`. -/
theorem raycast_straight_down_witness :
    (mapHome : MapManipulator ℝ).toManipulator.raycast 0 0 ⟨7, 7, 7⟩ 0 = (true, ⟨0, 0, 0⟩) := by
  obtain ⟨he, ht, hp⟩ := mapHome_state
  have hg : normalize ((mapHome : MapManipulator ℝ).mTarget - (mapHome : MapManipulator ℝ).mEye)
      = ⟨0, 0, -1⟩ := by
    rw [he, ht]
    exact normalize_sub_down 0 0 5 (by norm_num)
  have h := (raycast_straight_down (mapHome : MapManipulator ℝ).toManipulator 0 0 ⟨7, 7, 7⟩ 0
    (by rw [hp]; rfl) (by rw [hp]; rfl) (by rw [he]; norm_num) hg).2.2 0 0
    (by rw [hp]; rfl)
  rw [h.2.2.2, he]

end Raycast

/-! ## Map mode: zoom -/

section MapZoom

open MapManipulator

/-- Claim C14: for every map state and `zoom (x, y, s)`: if `raycast (x, y)` fails, or if
`s > 0` and `|scenePoint - eye| < zoomSpeed`, the state is unchanged (in particular eye and
target); otherwise eye and target are both translated by the un-normalised vector
`(scenePoint - eye) * zoomSpeed`, so `target - eye` is preserved. -/
theorem map_zoom_dolly (m : MapManipulator ℝ) (x y : Int) (s : ℝ) (g0 : Vec3 ℝ) (t0 : ℝ) :
    (((m.toManipulator.raycast x y g0 t0).1 = false ∨
        (s > 0 ∧ length ((m.toManipulator.raycast x y g0 t0).2 - m.mEye) < m.mProps.zoomSpeed)) →
      zoom m x y s g0 t0 = m) ∧
    (¬ ((m.toManipulator.raycast x y g0 t0).1 = false ∨
        (s > 0 ∧ length ((m.toManipulator.raycast x y g0 t0).2 - m.mEye) < m.mProps.zoomSpeed)) →
      (zoom m x y s g0 t0).mEye
        = m.mEye + ((m.toManipulator.raycast x y g0 t0).2 - m.mEye) * m.mProps.zoomSpeed ∧
      (zoom m x y s g0 t0).mTarget
        = m.mTarget + ((m.toManipulator.raycast x y g0 t0).2 - m.mEye) * m.mProps.zoomSpeed ∧
      (zoom m x y s g0 t0).mTarget - (zoom m x y s g0 t0).mEye = m.mTarget - m.mEye) := by
  constructor
  · rintro (hfail | hguard)
    · simp [zoom, hfail]
    · by_cases hhit : (m.toManipulator.raycast x y g0 t0).1 = true
      · simp [zoom, hhit, hguard]
      · simp [zoom, hhit]
  · intro h
    rw [not_or] at h
    obtain ⟨hhit, hguard⟩ := h
    have hhit1 : (m.toManipulator.raycast x y g0 t0).1 = true := by simpa using hhit
    have hz : zoom m x y s g0 t0 = moveWithConstraints m
        (m.mEye + ((m.toManipulator.raycast x y g0 t0).2 - m.mEye) * m.mProps.zoomSpeed)
        (m.mTarget + ((m.toManipulator.raycast x y g0 t0).2 - m.mEye) * m.mProps.zoomSpeed) := by
      simp only [zoom, hhit1, Bool.not_true, Bool.false_eq_true, if_false, gt_iff_lt]
      rw [if_neg hguard]
    rw [hz]
    refine ⟨rfl, rfl, ?_⟩
    simp only [moveWithConstraints]
    exact add_sub_add_same _ _ _

/-- Witness for C14: from `mapHome` (eye `(0,0,5)`, target `(0,0,0)`, zoom speed `1/5`) the
call `zoom (0, 0, 1)` hits the scene point `(0,0,0)` and moves eye and target by
`(0, 0, -1)`. -/
theorem map_zoom_dolly_witness :
    (mapZoomed : MapManipulator ℝ).mEye = ⟨0, 0, 4⟩ ∧
    (mapZoomed : MapManipulator ℝ).mTarget = ⟨0, 0, -1⟩ := by
  obtain ⟨he, ht, hp⟩ := mapHome_state
  have hg : normalize ((mapHome : MapManipulator ℝ).mTarget - (mapHome : MapManipulator ℝ).mEye)
      = ⟨0, 0, -1⟩ := by
    rw [he, ht]
    exact normalize_sub_down 0 0 5 (by norm_num)
  have hray : (mapHome : MapManipulator ℝ).toManipulator.raycast 0 0 ⟨0, 0, 0⟩ 0
      = (true, ⟨0, 0, 0⟩) := by
    rw [(raycast_down_centre (mapHome : MapManipulator ℝ).toManipulator 0 0 ⟨0, 0, 0⟩ 0
      (by rw [hp]; rfl) (by rw [hp]; rfl) (by rw [he]; norm_num) hg (by rw [hp]; rfl)).2.2.2, he]
  have hlen : length ((⟨0, 0, 0⟩ : Vec3 ℝ) - ⟨0, 0, 5⟩) = 5 := by
    simp [length, dot, Vec3.sub_def, sqrt_25]
  have h := (map_zoom_dolly (mapHome : MapManipulator ℝ) 0 0 1 ⟨0, 0, 0⟩ 0).2 (by
    rw [hray, he, hlen, hp]
    simp only [mapProps]
    norm_num)
  rw [hray, he, ht, hp] at h
  refine ⟨h.1.trans ?_, h.2.1.trans ?_⟩
  · simp only [mapProps, Vec3.add_def, Vec3.sub_def, Vec3.mul_def]
    ext <;> norm_num
  · simp only [mapProps, Vec3.add_def, Vec3.sub_def, Vec3.mul_def]
    ext <;> norm_num

theorem length_z (h : ℝ) (hh : 0 ≤ h) : length ((⟨0, 0, 0⟩ : Vec3 ℝ) - ⟨0, 0, h⟩) = h := by
  simp only [length, dot, Vec3.sub_def, sqrt_real]
  apply sqrt_eq_of_mul_self hh
  ring

end MapZoom

/-! ## Map mode: grab sessions -/

section MapGrab

open MapManipulator

/-- An update outside a panning session changes nothing. -/
theorem map_grabUpdates_idle (ps : List (Int × Int)) :
    ∀ s : MapManipulator ℝ, s.mGrabbing = false → grabUpdates s ps = s := by
  induction ps with
  | nil =>
    intro s _
    rfl
  | cons q qs ih =>
    intro s hs
    have h1 : grabUpdate s q.1 q.2 = s := by simp [grabUpdate, hs]
    have e : grabUpdates s (q :: qs) = grabUpdates (grabUpdate s q.1 q.2) qs := rfl
    rw [e, h1]
    exact ih s hs

/-- Claim C20: from an idle map manipulator, `grabBegin (x, y, strafe)` with `strafe = true`,
or with a raycast at `(x, y)` that fails, does not enter the panning state and changes
neither eye nor target (the state is left as it was); every sequence of subsequent
`grabUpdate` calls is then a no-op on eye and target; `grabEnd` always returns to idle. -/
theorem map_grab_cannot_start (m : MapManipulator ℝ) (x y : Int) (strafe : Bool) (t0 : ℝ)
    (ps : List (Int × Int)) (hidle : m.mGrabbing = false)
    (hfail : strafe = true ∨ (m.toManipulator.raycast x y m.mGrabScene t0).1 = false) :
    (grabBegin m x y strafe t0).mGrabbing = false ∧
    (grabBegin m x y strafe t0).mEye = m.mEye ∧
    (grabBegin m x y strafe t0).mTarget = m.mTarget ∧
    (grabUpdates (grabBegin m x y strafe t0) ps).mGrabbing = false ∧
    (grabUpdates (grabBegin m x y strafe t0) ps).mEye = m.mEye ∧
    (grabUpdates (grabBegin m x y strafe t0) ps).mTarget = m.mTarget ∧
    (∀ s : MapManipulator ℝ, (grabEnd s).mGrabbing = false ∧
      (grabEnd s).mEye = s.mEye ∧ (grabEnd s).mTarget = s.mTarget) := by
  have hb : grabBegin m x y strafe t0 = m := by
    rcases hfail with hstrafe | hray
    · simp [grabBegin, hstrafe]
    · by_cases hstrafe : strafe = true
      · simp [grabBegin, hstrafe]
      · have h2 := raycast_fail_result m.toManipulator x y m.mGrabScene t0 hray
        simp [grabBegin, hstrafe, hray, h2]
  rw [hb, map_grabUpdates_idle ps m hidle]
  exact ⟨hidle, rfl, rfl, hidle, rfl, rfl, fun s => ⟨rfl, rfl, rfl⟩⟩

/-- Witness for C20: on the idle state `mapHome` a `grabBegin (0, 0, true)` followed by the
updates `(3, 4)` and `(-7, 9)` leaves the manipulator idle with eye `(0,0,5)` and target
`(0,0,0)`. -/
theorem map_grab_cannot_start_witness :
    (mapHome : MapManipulator ℝ).mGrabbing = false ∧
    (grabUpdates (grabBegin (mapHome : MapManipulator ℝ) 0 0 true 0)
      [(3, 4), (-7, 9)]).mGrabbing = false ∧
    (grabUpdates (grabBegin (mapHome : MapManipulator ℝ) 0 0 true 0)
      [(3, 4), (-7, 9)]).mEye = ⟨0, 0, 5⟩ ∧
    (grabUpdates (grabBegin (mapHome : MapManipulator ℝ) 0 0 true 0)
      [(3, 4), (-7, 9)]).mTarget = ⟨0, 0, 0⟩ := by
  obtain ⟨he, ht, _⟩ := mapHome_state
  have h := map_grab_cannot_start (mapHome : MapManipulator ℝ) 0 0 true 0 [(3, 4), (-7, 9)]
    rfl (Or.inl rfl)
  exact ⟨rfl, h.2.2.2.1, h.2.2.2.2.1.trans he, h.2.2.2.2.2.1.trans ht⟩

/-- The update of an active panning session: eye and target are their grab baselines
translated by `(mGrabFar - raycastFarPlane (x, y)) * |scene - baselineEye| / |far - scene|`. -/
theorem map_grabUpdate_grabbing (m : MapManipulator ℝ) (x y : Int) (hg : m.mGrabbing = true) :
    (grabUpdate m x y).mEye
      = m.mGrabEye + (m.mGrabFar - raycastFarPlane m x y) * distance m.mGrabScene m.mGrabEye
          / distance m.mGrabFar m.mGrabScene ∧
    (grabUpdate m x y).mTarget
      = m.mGrabTarget + (m.mGrabFar - raycastFarPlane m x y) * distance m.mGrabScene m.mGrabEye
          / distance m.mGrabFar m.mGrabScene := by
  simp [grabUpdate, hg, moveWithConstraints]

/-- The state `panHome`: eye `(0,0,5)` straight above the target `(0,0,0)`. -/
theorem panHome_state :
    (panHome : MapManipulator ℝ).mEye = ⟨0, 0, 5⟩ ∧
    (panHome : MapManipulator ℝ).mTarget = ⟨0, 0, 0⟩ ∧
    (panHome : MapManipulator ℝ).mProps = panProps := by
  refine ⟨?_, ?_, rfl⟩
  · simp [panHome, MapManipulator.jumpToBookmark, MapManipulator.new, Manipulator.new,
      panProps, mapProps, zeroProps, Vec4.xyz, cross, normalize, length, dot, Vec3.add_def,
      Vec3.mul_def, Vec3.smul_def, tan_fov_90]
    norm_num
  · simp [panHome, MapManipulator.jumpToBookmark, MapManipulator.new, Manipulator.new,
      panProps, mapProps, zeroProps, Vec4.xyz, cross, normalize, length, dot, Vec3.add_def,
      Vec3.mul_def, Vec3.smul_def]

theorem panHome_gaze :
    normalize ((panHome : MapManipulator ℝ).mTarget - (panHome : MapManipulator ℝ).mEye)
      = ⟨0, 0, -1⟩ := by
  obtain ⟨he, ht, _⟩ := panHome_state
  rw [he, ht]
  exact normalize_sub_down 0 0 5 (by norm_num)

theorem panHome_pixelDir :
    pixelDir (panHome : MapManipulator ℝ).toManipulator 3 0 = ⟨3 / 4, 0, -1⟩ := by
  obtain ⟨he, ht, hp⟩ := panHome_state
  have hv : (panHome : MapManipulator ℝ).mProps.viewport = (4, 1) := by rw [hp]; rfl
  have hu : (panHome : MapManipulator ℝ).mProps.homeUpVector = ⟨0, 1, 0⟩ := by rw [hp]; rfl
  have hf : (panHome : MapManipulator ℝ).mProps.fovDirection = Fov.HORIZONTAL := by rw [hp]; rfl
  have hd : (panHome : MapManipulator ℝ).mProps.fovDegrees = 90 := by rw [hp]; rfl
  simp only [pixelDir, panHome_gaze, hv, hu, hf, hd, pi_real, tan_real, tan_fov_90, cross,
    Vec3.add_def, Vec3.mul_def, Vec3.div_def]
  rw [if_neg (by decide)]
  ext <;> norm_num

theorem length_pan : length (⟨3 / 4, 0, -1⟩ : Vec3 ℝ) = 5 / 4 := by
  simp only [length, dot, sqrt_real]
  apply sqrt_eq_of_mul_self (by norm_num)
  norm_num

theorem panHome_raycast (g0 : Vec3 ℝ) (t0 : ℝ) :
    (panHome : MapManipulator ℝ).toManipulator.raycast 3 0 g0 t0 = (true, ⟨15 / 4, 0, 0⟩) := by
  obtain ⟨he, ht, hp⟩ := panHome_state
  rw [(raycast_looking_down (panHome : MapManipulator ℝ).toManipulator 3 0 g0 t0
    (by rw [hp]; rfl) (by rw [hp]; rfl) panHome_gaze (by rw [he]; norm_num)).2,
    panHome_pixelDir, length_pan, if_pos (by norm_num), he]
  simp only [Vec3.add_def, Vec3.mul_def]
  norm_num

/-- Claim C12 fails on the code: in the state `panHome` (eye `(0,0,5)` looking straight
down, far plane at `10`) the call `grabBegin (3, 0, false)` starts a panning session whose
scene point is `(15/4, 0, 0)`, on the cursor ray of direction `(3/5, 0, -4/5)`, but whose
recorded far point is `(0, 0, -5) = eye + gaze * farPlane`, not the point
`(6, 0, -3) = eye + dir * farPlane` of the cursor ray: eye, scene point and far point are
not collinear, the far point is the same for every cursor pixel, and every `grabUpdate`
leaves eye and target at their grab baselines. -/
theorem map_pan_far_point_off_cursor_ray :
    (panGrab : MapManipulator ℝ).mGrabbing = true ∧
    (panGrab : MapManipulator ℝ).mGrabEye = ⟨0, 0, 5⟩ ∧
    (panGrab : MapManipulator ℝ).mGrabTarget = ⟨0, 0, 0⟩ ∧
    (panGrab : MapManipulator ℝ).mGrabScene = ⟨15 / 4, 0, 0⟩ ∧
    normalize (pixelDir (panHome : MapManipulator ℝ).toManipulator 3 0) = ⟨3 / 5, 0, -(4 / 5)⟩ ∧
    (panHome : MapManipulator ℝ).mEye
      + normalize (pixelDir (panHome : MapManipulator ℝ).toManipulator 3 0)
        * (panHome : MapManipulator ℝ).mProps.farPlane = ⟨6, 0, -3⟩ ∧
    (panGrab : MapManipulator ℝ).mGrabFar = ⟨0, 0, -5⟩ ∧
    cross ((panGrab : MapManipulator ℝ).mGrabScene - (panGrab : MapManipulator ℝ).mGrabEye)
      ((panGrab : MapManipulator ℝ).mGrabFar - (panGrab : MapManipulator ℝ).mGrabEye)
      ≠ ⟨0, 0, 0⟩ ∧
    (∀ x y : Int, raycastFarPlane (panGrab : MapManipulator ℝ) x y = ⟨0, 0, -5⟩) ∧
    (∀ x y : Int, (grabUpdate (panGrab : MapManipulator ℝ) x y).mEye = ⟨0, 0, 5⟩ ∧
      (grabUpdate (panGrab : MapManipulator ℝ) x y).mTarget = ⟨0, 0, 0⟩) := by
  obtain ⟨he, ht, hp⟩ := panHome_state
  have hfar0 : (panHome : MapManipulator ℝ).mProps.farPlane = 10 := by rw [hp]; rfl
  have hfarpt : (panHome : MapManipulator ℝ).mEye
      + normalize ((panHome : MapManipulator ℝ).mTarget - (panHome : MapManipulator ℝ).mEye)
        * (panHome : MapManipulator ℝ).mProps.farPlane = ⟨0, 0, -5⟩ := by
    rw [panHome_gaze, he, hfar0]
    simp only [Vec3.add_def, Vec3.mul_def]
    norm_num
  have hgrab : (panGrab : MapManipulator ℝ)
      = { (panHome : MapManipulator ℝ) with
          mGrabScene := ⟨15 / 4, 0, 0⟩
          mGrabFar := ⟨0, 0, -5⟩
          mGrabEye := ⟨0, 0, 5⟩
          mGrabTarget := ⟨0, 0, 0⟩
          mGrabbing := true } := by
    simp only [panGrab, grabBegin, panHome_raycast, raycastFarPlane, hfarpt]
    simp [he, ht]
  have hdir : normalize (pixelDir (panHome : MapManipulator ℝ).toManipulator 3 0)
      = ⟨3 / 5, 0, -(4 / 5)⟩ := by
    rw [panHome_pixelDir, normalize, length_pan]
    simp only [Vec3.mul_def]
    ext <;> norm_num
  have hfar : ∀ x y : Int, raycastFarPlane (panGrab : MapManipulator ℝ) x y = ⟨0, 0, -5⟩ := by
    intro x y
    rw [hgrab]
    exact hfarpt
  refine ⟨by rw [hgrab], by rw [hgrab], by rw [hgrab], by rw [hgrab], hdir, ?_, by rw [hgrab],
    ?_, hfar, ?_⟩
  · rw [hdir, he, hfar0]
    simp only [Vec3.add_def, Vec3.mul_def]
    ext <;> norm_num
  · rw [hgrab]
    simp only [cross, Vec3.sub_def]
    intro h
    have h2 := congrArg Vec3.y h
    norm_num at h2
  · intro x y
    obtain ⟨h1, h2⟩ := map_grabUpdate_grabbing (panGrab : MapManipulator ℝ) x y (by rw [hgrab])
    rw [h1, h2, hfar x y]
    rw [hgrab]
    simp [Vec3.add_def, Vec3.sub_def, Vec3.mul_def, Vec3.div_def]

end MapGrab

/-! ## Ground-plane intersector -/

section Intersector

/-- Claim C21: for the plane with normal `n` and offset `d` (`groundPlane = (n, d)`), ray
origin `o` and direction `v`, the intersector succeeds iff `-(n.v) > 1e-6` and
`t = ((n*d - o).n) / (n.v) ≥ 0`, which, given `-(n.v) > 1e-6`, holds iff `n.o ≥ d*(n.n)`;
whenever it succeeds the returned parameter is that `t`, it is `≥ 0`, and the point
`o + v*t` satisfies `n.(o + v*t) = d*(n.n)` (`= d` for a unit normal).  The private method
of the map manipulator is the same function on its own properties. -/
theorem raycastPlane_correct (props : Properties ℝ) (o v : Vec3 ℝ) (t0 : ℝ) :
    ((raycastPlane props o v t0).1 = true ↔
      -dot props.groundPlane.xyz v > 1 / 1000000 ∧
      dot (props.groundPlane.xyz * props.groundPlane.w - o) props.groundPlane.xyz
        / dot props.groundPlane.xyz v ≥ 0) ∧
    (-dot props.groundPlane.xyz v > 1 / 1000000 →
      (dot (props.groundPlane.xyz * props.groundPlane.w - o) props.groundPlane.xyz
          / dot props.groundPlane.xyz v ≥ 0 ↔
        dot props.groundPlane.xyz o
          ≥ props.groundPlane.w * dot props.groundPlane.xyz props.groundPlane.xyz)) ∧
    ((raycastPlane props o v t0).1 = true →
      (raycastPlane props o v t0).2
        = dot (props.groundPlane.xyz * props.groundPlane.w - o) props.groundPlane.xyz
          / dot props.groundPlane.xyz v ∧
      0 ≤ (raycastPlane props o v t0).2 ∧
      dot props.groundPlane.xyz (o + v * (raycastPlane props o v t0).2)
        = props.groundPlane.w * dot props.groundPlane.xyz props.groundPlane.xyz ∧
      (dot props.groundPlane.xyz props.groundPlane.xyz = 1 →
        dot props.groundPlane.xyz (o + v * (raycastPlane props o v t0).2)
          = props.groundPlane.w)) ∧
    (∀ m : MapManipulator ℝ, m.mProps = props →
      MapManipulator.raycastPlane m o v t0 = raycastPlane props o v t0) := by
  have hxyz : (⟨props.groundPlane.x, props.groundPlane.y, props.groundPlane.z⟩ : Vec3 ℝ)
      = props.groundPlane.xyz := rfl
  have hval : ∀ h : -dot props.groundPlane.xyz v > 1 / 1000000,
      raycastPlane props o v t0
        = (decide (dot (props.groundPlane.xyz * props.groundPlane.w - o) props.groundPlane.xyz
            / dot props.groundPlane.xyz v ≥ 0),
          dot (props.groundPlane.xyz * props.groundPlane.w - o) props.groundPlane.xyz
            / dot props.groundPlane.xyz v) := by
    intro h
    simp only [raycastPlane, hxyz, h, if_true, neg_neg]
  have hno : ¬ -dot props.groundPlane.xyz v > 1 / 1000000 →
      raycastPlane props o v t0 = (false, t0) := by
    intro h
    simp only [raycastPlane, hxyz, h, if_false]
  have hplane : ∀ t : ℝ, dot props.groundPlane.xyz v ≠ 0 →
      t = dot (props.groundPlane.xyz * props.groundPlane.w - o) props.groundPlane.xyz
        / dot props.groundPlane.xyz v →
      dot props.groundPlane.xyz (o + v * t)
        = props.groundPlane.w * dot props.groundPlane.xyz props.groundPlane.xyz := by
    intro t hne ht
    have h1 : t * dot props.groundPlane.xyz v
        = dot (props.groundPlane.xyz * props.groundPlane.w - o) props.groundPlane.xyz := by
      rw [ht]
      field_simp
    simp only [dot, Vec3.add_def, Vec3.sub_def, Vec3.mul_def] at h1 ⊢
    linear_combination h1
  refine ⟨?_, ?_, ?_, ?_⟩
  · by_cases h : -dot props.groundPlane.xyz v > 1 / 1000000
    · rw [hval h]
      exact ⟨fun hd => ⟨h, of_decide_eq_true hd⟩, fun ht => decide_eq_true ht.2⟩
    · rw [hno h]
      exact ⟨fun hf => Bool.noConfusion hf, fun h1 => absurd h1.1 h⟩
  · intro h
    have hneg : dot props.groundPlane.xyz v < 0 := by linarith
    have e : dot (props.groundPlane.xyz * props.groundPlane.w - o) props.groundPlane.xyz
        = props.groundPlane.w * dot props.groundPlane.xyz props.groundPlane.xyz
          - dot props.groundPlane.xyz o := by
      simp only [dot, Vec3.sub_def, Vec3.mul_def]
      ring
    rw [e, ge_iff_le, ge_iff_le, div_nonneg_iff]
    constructor
    · rintro (⟨_, h2⟩ | ⟨h1, _⟩)
      · linarith
      · linarith
    · intro h1
      exact Or.inr ⟨by linarith, hneg.le⟩
  · intro hit
    by_cases h : -dot props.groundPlane.xyz v > 1 / 1000000
    · rw [hval h] at hit ⊢
      have hne : dot props.groundPlane.xyz v ≠ 0 := by
        intro h0
        rw [h0] at h
        norm_num at h
      have hpl := hplane _ hne rfl
      refine ⟨rfl, of_decide_eq_true hit, hpl, fun hn => ?_⟩
      rw [hpl, hn, mul_one]
    · rw [hno h] at hit
      exact Bool.noConfusion hit
  · intro m hm
    rw [← hm]
    rfl

end Intersector

/-! ## Orbit mode: collinearity of eye, target and pivot -/

section Collinear

variable {F : Type} [LinearOrderedField F]

open OrbitManipulator

/-- Two vectors, one a multiple of a vector `d` and the other a multiple of the same `d`,
have zero cross product. -/
theorem cross_mul_mul (d : Vec3 F) (a b : F) : cross (d * a) (d * b) = ⟨0, 0, 0⟩ := by
  simp only [cross, Vec3.mul_def]
  ext <;> simp only <;> ring

variable [FloatOps F]

end Collinear

/-! ## Map mode: panning -/

section MapPan

open MapManipulator

/-- A `grabBegin` whose raycast fails leaves the whole state as it was. -/
theorem map_grabBegin_fail (m : MapManipulator ℝ) (x y : Int) (t0 : ℝ)
    (h : (m.toManipulator.raycast x y m.mGrabScene t0).1 = false) :
    grabBegin m x y false t0 = m := by
  have h2 := raycast_fail_result m.toManipulator x y m.mGrabScene t0 h
  simp [grabBegin, h, h2]

/-- A `grabBegin` whose raycast succeeds records the scene point, the far point
`eye + gaze * farPlane` and the current eye and target, and starts the session. -/
theorem map_grabBegin_hit (m : MapManipulator ℝ) (x y : Int) (t0 : ℝ)
    (h : (m.toManipulator.raycast x y m.mGrabScene t0).1 = true) :
    grabBegin m x y false t0 =
      { m with
        mGrabScene := (m.toManipulator.raycast x y m.mGrabScene t0).2
        mGrabFar := m.mEye + normalize (m.mTarget - m.mEye) * m.mProps.farPlane
        mGrabEye := m.mEye
        mGrabTarget := m.mTarget
        mGrabbing := true } := by
  simp [grabBegin, h, raycastFarPlane]

theorem add_zero_translation (p a : Vec3 ℝ) (u v : ℝ) : p + (a - a) * u / v = p := by
  simp only [Vec3.add_def, Vec3.sub_def, Vec3.mul_def, Vec3.div_def]
  ext <;> simp

/-- An update of a panning session whose baselines are the current eye and target and whose
far point is the current `eye + gaze * farPlane` changes nothing. -/
theorem map_grabUpdate_fixed (s : MapManipulator ℝ) (x y : Int)
    (he : s.mGrabEye = s.mEye) (ht : s.mGrabTarget = s.mTarget)
    (hf : s.mGrabFar = s.mEye + normalize (s.mTarget - s.mEye) * s.mProps.farPlane) :
    grabUpdate s x y = s := by
  by_cases hg : s.mGrabbing = true
  · have h1 : (grabUpdate s x y).mEye = s.mEye := by
      simp only [grabUpdate, hg, if_true, raycastFarPlane, moveWithConstraints, hf,
        add_zero_translation, he]
    have h2 : (grabUpdate s x y).mTarget = s.mTarget := by
      simp only [grabUpdate, hg, if_true, raycastFarPlane, moveWithConstraints, hf,
        add_zero_translation, ht]
    have h3 : grabUpdate s x y
        = { s with mEye := (grabUpdate s x y).mEye, mTarget := (grabUpdate s x y).mTarget } := by
      simp only [grabUpdate, hg, if_true, moveWithConstraints]
    rw [h3, h1, h2]
  · simp [grabUpdate, hg]

theorem map_grabUpdates_fixed (ps : List (Int × Int)) (s : MapManipulator ℝ)
    (he : s.mGrabEye = s.mEye) (ht : s.mGrabTarget = s.mTarget)
    (hf : s.mGrabFar = s.mEye + normalize (s.mTarget - s.mEye) * s.mProps.farPlane) :
    grabUpdates s ps = s := by
  induction ps with
  | nil => rfl
  | cons q qs ih =>
    have e : grabUpdates s (q :: qs) = grabUpdates (grabUpdate s q.1 q.2) qs := rfl
    rw [e, map_grabUpdate_fixed s q.1 q.2 he ht hf]
    exact ih

/-- The state `staleHome`: eye `(0,0,5)` straight above the target `(0,0,0)`. -/
theorem staleHome_state :
    (staleHome : MapManipulator ℝ).mEye = ⟨0, 0, 5⟩ ∧
    (staleHome : MapManipulator ℝ).mTarget = ⟨0, 0, 0⟩ ∧
    (staleHome : MapManipulator ℝ).mProps = staleProps := by
  refine ⟨?_, ?_, rfl⟩
  · simp [staleHome, MapManipulator.jumpToBookmark, MapManipulator.new, Manipulator.new,
      staleProps, mapProps, zeroProps, Vec4.xyz, cross, normalize, length, dot, Vec3.add_def,
      Vec3.mul_def, Vec3.smul_def, tan_fov_90]
    norm_num
  · simp [staleHome, MapManipulator.jumpToBookmark, MapManipulator.new, Manipulator.new,
      staleProps, mapProps, zeroProps, Vec4.xyz, cross, normalize, length, dot, Vec3.add_def,
      Vec3.mul_def, Vec3.smul_def]

theorem staleHome_raycast (g0 : Vec3 ℝ) (t0 : ℝ) :
    (staleHome : MapManipulator ℝ).toManipulator.raycast 0 0 g0 t0 = (true, ⟨0, 0, 0⟩) := by
  obtain ⟨he, ht, hp⟩ := staleHome_state
  have hg : normalize ((staleHome : MapManipulator ℝ).mTarget
      - (staleHome : MapManipulator ℝ).mEye) = ⟨0, 0, -1⟩ := by
    rw [he, ht]
    exact normalize_sub_down 0 0 5 (by norm_num)
  rw [(raycast_down_centre (staleHome : MapManipulator ℝ).toManipulator 0 0 g0 t0
    (by rw [hp]; rfl) (by rw [hp]; rfl) (by rw [he]; norm_num) hg (by rw [hp]; rfl)).2.2.2, he]

/-- The state `staleZoomed`: the session begun at eye `(0,0,5)` is still open, with scene
point `(0,0,0)` and far point `(0,0,-5)`, and the zoom has carried the eye to `(0,0,-5)`
and the target to `(0,0,-10)`. -/
theorem staleZoomed_eq :
    (staleZoomed : MapManipulator ℝ)
      = { (staleHome : MapManipulator ℝ) with
          mEye := ⟨0, 0, -5⟩
          mTarget := ⟨0, 0, -10⟩
          mGrabScene := ⟨0, 0, 0⟩
          mGrabFar := ⟨0, 0, -5⟩
          mGrabEye := ⟨0, 0, 5⟩
          mGrabTarget := ⟨0, 0, 0⟩
          mGrabbing := true } := by
  obtain ⟨he, ht, hp⟩ := staleHome_state
  have hfar : (staleHome : MapManipulator ℝ).mEye
      + normalize ((staleHome : MapManipulator ℝ).mTarget - (staleHome : MapManipulator ℝ).mEye)
        * (staleHome : MapManipulator ℝ).mProps.farPlane = ⟨0, 0, -5⟩ := by
    rw [ht, he, normalize_sub_down 0 0 5 (by norm_num), hp]
    simp only [staleProps, Vec3.add_def, Vec3.mul_def]
    ext <;> norm_num
  have hb : grabBegin (staleHome : MapManipulator ℝ) 0 0 false 0
      = { (staleHome : MapManipulator ℝ) with
          mGrabScene := ⟨0, 0, 0⟩
          mGrabFar := ⟨0, 0, -5⟩
          mGrabEye := ⟨0, 0, 5⟩
          mGrabTarget := ⟨0, 0, 0⟩
          mGrabbing := true } := by
    rw [map_grabBegin_hit _ 0 0 0 (by rw [staleHome_raycast]), staleHome_raycast, hfar, he, ht]
  have hlen : length ((⟨0, 0, 0⟩ : Vec3 ℝ) - ⟨0, 0, 5⟩) = 5 := length_z 5 (by norm_num)
  have hzs : (staleHome : MapManipulator ℝ).mProps.zoomSpeed = 2 := by
    rw [hp]
    rfl
  rw [staleZoomed, hb]
  simp only [zoom, staleHome_raycast, he, ht, hlen, hzs, moveWithConstraints, Bool.not_true,
    Bool.false_eq_true, if_false]
  rw [if_neg (by norm_num)]
  simp only [Vec3.add_def, Vec3.sub_def, Vec3.mul_def]
  norm_num

theorem staleZoomed_gaze :
    normalize ((⟨0, 0, -10⟩ : Vec3 ℝ) - ⟨0, 0, -5⟩) = ⟨0, 0, -1⟩ := by
  have e : (⟨0, 0, -10⟩ : Vec3 ℝ) - ⟨0, 0, -5⟩ = (⟨0, 0, -1⟩ : Vec3 ℝ) * (5 : ℝ) := by
    simp only [Vec3.sub_def, Vec3.mul_def]
    ext <;> norm_num
  have hl : length ((⟨0, 0, -1⟩ : Vec3 ℝ) * (5 : ℝ)) = 5 := by
    rw [length_mul _ (by norm_num), length_of_dot_eq_one (by simp [dot]), one_mul]
  rw [normalize, e, hl]
  simp only [Vec3.mul_def]
  ext <;> norm_num

/-- In the state `staleZoomed` the eye is below the ground plane and looks away from it: the
raycast at the centre pixel fails. -/
theorem staleZoomed_raycast (g0 : Vec3 ℝ) (t0 : ℝ) :
    (staleZoomed : MapManipulator ℝ).toManipulator.raycast 0 0 g0 t0 = (false, g0) := by
  obtain ⟨_, _, hp⟩ := staleHome_state
  have hdir : pixelDir (staleZoomed : MapManipulator ℝ).toManipulator 0 0 = ⟨0, 0, -1⟩ := by
    rw [staleZoomed_eq]
    simp only [pixelDir, staleZoomed_gaze, hp, staleProps, mapProps, zeroProps, if_true, cross,
      Vec3.add_def, Vec3.mul_def]
    ext <;> norm_num
  have hn : normalize (⟨0, 0, -1⟩ : Vec3 ℝ) = ⟨0, 0, -1⟩ := normalize_of_unit (by simp [dot])
  simp only [Manipulator.raycast, hdir, hn]
  rw [staleZoomed_eq]
  simp only [hp, staleProps, mapProps, zeroProps, raycastPlane, dot, Vec3.mul_def, Vec3.sub_def]
  norm_num

/-- Claim C22 as stated fails: the state `staleZoomed` has eye `(0,0,-5)` different from its
target `(0,0,-10)` and an open panning session with far point `(0,0,-5)` different from the
scene point `(0,0,0)`; its `grabBegin (0, 0, false)` fails to raycast and leaves the stale
session open, and the following `grabUpdate (0, 0)` moves the eye to `(0,0,15)` and the
target to `(0,0,10)`. -/
theorem map_pan_stale_session_counterexample :
    (staleZoomed : MapManipulator ℝ).mEye = ⟨0, 0, -5⟩ ∧
    (staleZoomed : MapManipulator ℝ).mTarget = ⟨0, 0, -10⟩ ∧
    (staleZoomed : MapManipulator ℝ).mEye ≠ (staleZoomed : MapManipulator ℝ).mTarget ∧
    (grabBegin (staleZoomed : MapManipulator ℝ) 0 0 false 0).mGrabbing = true ∧
    (grabBegin (staleZoomed : MapManipulator ℝ) 0 0 false 0).mGrabFar
      ≠ (grabBegin (staleZoomed : MapManipulator ℝ) 0 0 false 0).mGrabScene ∧
    (grabUpdates (grabBegin (staleZoomed : MapManipulator ℝ) 0 0 false 0) [(0, 0)]).mEye
      = ⟨0, 0, 15⟩ ∧
    (grabUpdates (grabBegin (staleZoomed : MapManipulator ℝ) 0 0 false 0) [(0, 0)]).mTarget
      = ⟨0, 0, 10⟩ ∧
    (grabUpdates (grabBegin (staleZoomed : MapManipulator ℝ) 0 0 false 0) [(0, 0)]).mEye
      ≠ (staleZoomed : MapManipulator ℝ).mEye := by
  obtain ⟨_, _, hp⟩ := staleHome_state
  have hb : grabBegin (staleZoomed : MapManipulator ℝ) 0 0 false 0 = staleZoomed :=
    map_grabBegin_fail _ 0 0 0 (by rw [staleZoomed_raycast])
  have he : (staleZoomed : MapManipulator ℝ).mEye = ⟨0, 0, -5⟩ := by rw [staleZoomed_eq]
  have ht : (staleZoomed : MapManipulator ℝ).mTarget = ⟨0, 0, -10⟩ := by rw [staleZoomed_eq]
  have hg : (staleZoomed : MapManipulator ℝ).mGrabbing = true := by rw [staleZoomed_eq]
  have hfar : raycastFarPlane (staleZoomed : MapManipulator ℝ) 0 0 = ⟨0, 0, -15⟩ := by
    simp only [raycastFarPlane, he, ht, staleZoomed_gaze]
    rw [staleZoomed_eq]
    simp only [hp, staleProps, Vec3.add_def, Vec3.mul_def]
    ext <;> norm_num
  have hu : distance (staleZoomed : MapManipulator ℝ).mGrabScene
      (staleZoomed : MapManipulator ℝ).mGrabEye = 5 := by
    rw [staleZoomed_eq]
    simp [distance, length, dot, Vec3.sub_def, sqrt_25]
  have hv : distance (staleZoomed : MapManipulator ℝ).mGrabFar
      (staleZoomed : MapManipulator ℝ).mGrabScene = 5 := by
    rw [staleZoomed_eq]
    simp [distance, length, dot, Vec3.sub_def, sqrt_25]
  obtain ⟨h1, h2⟩ := map_grabUpdate_grabbing (staleZoomed : MapManipulator ℝ) 0 0 hg
  have e : grabUpdates (staleZoomed : MapManipulator ℝ) [(0, 0)]
      = grabUpdate (staleZoomed : MapManipulator ℝ) 0 0 := rfl
  have heye : (grabUpdate (staleZoomed : MapManipulator ℝ) 0 0).mEye = ⟨0, 0, 15⟩ := by
    rw [h1, hfar, hu, hv]
    rw [staleZoomed_eq]
    simp only [Vec3.add_def, Vec3.sub_def, Vec3.mul_def, Vec3.div_def]
    ext <;> norm_num
  have htar : (grabUpdate (staleZoomed : MapManipulator ℝ) 0 0).mTarget = ⟨0, 0, 10⟩ := by
    rw [h2, hfar, hu, hv]
    rw [staleZoomed_eq]
    simp only [Vec3.add_def, Vec3.sub_def, Vec3.mul_def, Vec3.div_def]
    ext <;> norm_num
  rw [hb, e]
  refine ⟨he, ht, ?_, hg, ?_, heye, htar, ?_⟩
  · rw [he, ht]
    intro h
    have h3 := congrArg Vec3.z h
    norm_num at h3
  · rw [staleZoomed_eq]
    intro h
    have h3 := congrArg Vec3.z h
    norm_num at h3
  · rw [heye, he]
    intro h
    have h3 := congrArg Vec3.z h
    norm_num at h3

/-- Claim C22, amended: for every map state with eye different from target that is idle
(no panning session open) or whose raycast at `(x0, y0)` succeeds, and all pixels, after
`grabBegin (x0, y0, false)` followed directly by any sequence of `grabUpdate` calls, eye and
target equal their values before `grabBegin` (assuming the recorded far point differs from
the grabbed scene point, so that the ratio is defined): the far-plane point computed by
`raycastFarPlane` is `eye + gaze * farPlane` and does not depend on the pixel. -/
theorem map_pan_inert (m : MapManipulator ℝ) (x0 y0 : Int) (t0 : ℝ) (ps : List (Int × Int))
    (_hne : m.mEye ≠ m.mTarget)
    (hstart : m.mGrabbing = false ∨ (m.toManipulator.raycast x0 y0 m.mGrabScene t0).1 = true)
    (_hratio : (grabBegin m x0 y0 false t0).mGrabbing = true →
      (grabBegin m x0 y0 false t0).mGrabFar ≠ (grabBegin m x0 y0 false t0).mGrabScene) :
    (grabUpdates (grabBegin m x0 y0 false t0) ps).mEye = m.mEye ∧
    (grabUpdates (grabBegin m x0 y0 false t0) ps).mTarget = m.mTarget ∧
    (∀ x y : Int, raycastFarPlane m x y
      = m.mEye + normalize (m.mTarget - m.mEye) * m.mProps.farPlane) ∧
    (∀ x y x1 y1 : Int, raycastFarPlane m x y = raycastFarPlane m x1 y1) := by
  refine ⟨?_, ?_, fun _ _ => rfl, fun _ _ _ _ => rfl⟩
  · by_cases hit : (m.toManipulator.raycast x0 y0 m.mGrabScene t0).1 = true
    · rw [map_grabBegin_hit m x0 y0 t0 hit, map_grabUpdates_fixed ps _ rfl rfl rfl]
    · have hmiss : (m.toManipulator.raycast x0 y0 m.mGrabScene t0).1 = false := by
        simpa using hit
      have hidle : m.mGrabbing = false := hstart.resolve_right hit
      rw [map_grabBegin_fail m x0 y0 t0 hmiss, map_grabUpdates_idle ps m hidle]
  · by_cases hit : (m.toManipulator.raycast x0 y0 m.mGrabScene t0).1 = true
    · rw [map_grabBegin_hit m x0 y0 t0 hit, map_grabUpdates_fixed ps _ rfl rfl rfl]
    · have hmiss : (m.toManipulator.raycast x0 y0 m.mGrabScene t0).1 = false := by
        simpa using hit
      have hidle : m.mGrabbing = false := hstart.resolve_right hit
      rw [map_grabBegin_fail m x0 y0 t0 hmiss, map_grabUpdates_idle ps m hidle]

/-- Witness for C22 (amended): from the idle state `panHome` (eye `(0,0,5)`, target
`(0,0,0)`) the session begun by `grabBegin (3, 0, false)` records the far point `(0,0,-5)`
and the scene point `(15/4, 0, 0)`, and after the updates `(0, 0)` and `(2, 5)` eye and
target are where they were. -/
theorem map_pan_inert_witness :
    (grabUpdates (grabBegin (panHome : MapManipulator ℝ) 3 0 false 0) [(0, 0), (2, 5)]).mEye
      = ⟨0, 0, 5⟩ ∧
    (grabUpdates (grabBegin (panHome : MapManipulator ℝ) 3 0 false 0) [(0, 0), (2, 5)]).mTarget
      = ⟨0, 0, 0⟩ := by
  obtain ⟨he, ht, hp⟩ := panHome_state
  have hit : ((panHome : MapManipulator ℝ).toManipulator.raycast 3 0
      (panHome : MapManipulator ℝ).mGrabScene 0).1 = true := by rw [panHome_raycast]
  have h := map_pan_inert (panHome : MapManipulator ℝ) 3 0 0 [(0, 0), (2, 5)]
    (by
      rw [he, ht]
      intro h
      have h3 := congrArg Vec3.z h
      norm_num at h3)
    (Or.inl rfl)
    (by
      intro _
      rw [map_grabBegin_hit _ 3 0 0 hit, panHome_raycast]
      intro h
      have h1 := congrArg Vec3.x h
      simp only [panHome_gaze] at h1
      simp only [he, Vec3.add_def, Vec3.mul_def] at h1
      norm_num at h1)
  exact ⟨h.1.trans he, h.2.1.trans ht⟩

end MapPan

end Camutils
